import Mathlib

/-!
Verification of the PlanDrop native-messaging host (`plandrop_host.py`).

This file shallowly embeds the host's data model and operations in Lean:

* the Chrome native-messaging framer (`read_message` / `send_message`),
  over byte streams modelled as `List Nat` (each element < 256);
* a Python-faithful model of `json.dumps` / `json.loads` restricted to
  JSON values whose numbers are integers (the host's protocol only ever
  carries strings, booleans and integers; floats, `NaN`/`Infinity` and
  lone surrogates are outside the model and make the model parser fail);
* the input validators (`validate_path`, `validate_ssh_target`) and the
  identifier pattern `^[a-zA-Z0-9_-]+$` with Python `re.match` semantics
  (`$` also matches just before one trailing newline);
* every action handler, as a pure function of the request and of an
  oracle giving each external `ssh`/`scp` invocation's outcome, returning
  the response together with the list of invocations actually issued;
* the dispatcher and the main read/handle/respond loop.

Modelling notes.  Logging, temp-file paths and wall-clock formatting are
not observable in the model: the content written to a temp file is carried
directly in the corresponding copy invocation, and
`datetime.fromtimestamp(...).strftime(...)` is abstracted by `fmtTime`.
Exception message texts produced by the Python runtime (`str(e)` for
`json.JSONDecodeError`, `TypeError`, ...) are abstracted by `pyErrStr`;
no theorem below depends on those texts.  Request fields are modelled as
optional strings (plus an optional natural for `ssh_port`), matching the
extension's actual payloads.
-/

namespace PlanDrop

/-! ### Character helpers -/

/-- The backtick character. -/
def btick : Char := Char.ofNat 96

/-- The single-quote character. -/
def squo : Char := Char.ofNat 39

/-- The opening-brace character. -/
def lbrace : Char := Char.ofNat 123

/-- The closing-brace character. -/
def rbrace : Char := Char.ofNat 125

/-- JSON insignificant whitespace, as accepted by Python's json scanner. -/
def pyWs (c : Char) : Bool :=
  c = ' ' || c = '\t' || c = '\n' || c = '\r'

/-- Python's whitespace set: the characters matched by the regex `\s` on
`str` patterns, which is also the set stripped by `str.strip()`. -/
def pySpaceChar (c : Char) : Bool :=
  c.toNat = 32 || (9 ≤ c.toNat && c.toNat ≤ 13) ||
  (28 ≤ c.toNat && c.toNat ≤ 31) || c.toNat = 0x85 || c.toNat = 0xA0 ||
  c.toNat = 0x1680 || (0x2000 ≤ c.toNat && c.toNat ≤ 0x200A) ||
  c.toNat = 0x2028 || c.toNat = 0x2029 || c.toNat = 0x202F ||
  c.toNat = 0x205F || c.toNat = 0x3000

/-- ASCII decimal digit. -/
def isDig (c : Char) : Bool := 48 ≤ c.toNat && c.toNat ≤ 57

/-- `str.strip()` on a character list: drop Python whitespace at both ends. -/
def pyStripL (l : List Char) : List Char :=
  ((l.dropWhile pySpaceChar).reverse.dropWhile pySpaceChar).reverse

/-- `str.strip()`. -/
def pyStrip (s : String) : String := String.mk (pyStripL s.data)

/-- `a or b` Python idiom on strings: `b` when `a` is empty. -/
def orElseStr (a b : String) : String := if a = "" then b else a

/-- Does `l` start with `pat`? (`str.startswith`). -/
def leadsWith : List Char → List Char → Bool
  | [], _ => true
  | _ :: _, [] => false
  | a :: as, b :: bs => a = b && leadsWith as bs

/-- Does `l` contain `pat` as a contiguous substring? (Python `in`). -/
def hasSub (pat : List Char) : List Char → Bool
  | [] => leadsWith pat []
  | c :: r => leadsWith pat (c :: r) || hasSub pat r

/-- Everything after the first occurrence of `pat` (`s.split(pat, 1)[1]`). -/
def afterFirst (pat : List Char) : List Char → List Char
  | [] => []
  | c :: r => if leadsWith pat (c :: r) then (c :: r).drop pat.length
              else afterFirst pat r

/-- `s.replace(c, rep)` for a single-character needle. -/
def replChar (c : Char) (rep : List Char) (l : List Char) : List Char :=
  match l with
  | [] => []
  | x :: r => (if x = c then rep else [x]) ++ replChar c rep r

/-- Helper for `pySplitWs`: `cur` is the reversed current word. -/
def pySplitWsAux (cur : List Char) : List Char → List (List Char)
  | [] => if cur = [] then [] else [cur.reverse]
  | c :: r =>
    if pySpaceChar c then
      if cur = [] then pySplitWsAux [] r else cur.reverse :: pySplitWsAux [] r
    else pySplitWsAux (c :: cur) r

/-- Split on runs of Python whitespace, discarding empties (`str.split()`). -/
def pySplitWs (l : List Char) : List (List Char) := pySplitWsAux [] l

/-! ### JSON values

Python `json` values, with numbers restricted to integers (see the file
header).  Objects are insertion-ordered key/value lists, mirroring
`dict`; `json.loads` resolves duplicate keys by keeping the last one, so
lookups below take the last binding. -/

inductive Json where
  | null
  | bool (b : Bool)
  | num (i : Int)
  | str (s : String)
  | arr (elems : List Json)
  | obj (members : List (String × Json))
deriving Inhabited

/-- Last binding for `k`, as a Python `dict` built by `json.loads` would hold. -/
def lookupLast (k : String) : List (String × Json) → Option Json
  | [] => none
  | (k0, v) :: rest =>
    match lookupLast k rest with
    | some v' => some v'
    | none => if k0 = k then some v else none

/-- `d.get(k)` on a decoded object; `none` on non-objects is used only where
the surrounding model raises before the value could be consumed. -/
def dictGet (j : Json) (k : String) : Option Json :=
  match j with
  | .obj ms => lookupLast k ms
  | _ => none

/-- Python truthiness of a decoded JSON value. -/
def truthyJson : Json → Bool
  | .null => false
  | .bool b => b
  | .num i => i != 0
  | .str s => !s.data.isEmpty
  | .arr es => !es.isEmpty
  | .obj ms => !ms.isEmpty

/-! ### `json.dumps`

Renders with `ensure_ascii=True` and the default separators `", "` and
`": "`, exactly as the host calls it. -/

/-- Lowercase hexadecimal digit character for `d < 16`. -/
def hexCh (d : Nat) : Char :=
  if d < 10 then Char.ofNat (48 + d) else Char.ofNat (87 + d)

/-- A `\uXXXX` escape for `n < 0x10000`. -/
def uEsc (n : Nat) : List Char :=
  ['\\', 'u', hexCh (n / 4096 % 16), hexCh (n / 256 % 16),
   hexCh (n / 16 % 16), hexCh (n % 16)]

/-- One character of a string literal, escaped as `json.dumps` emits it. -/
def escapeOne (c : Char) : List Char :=
  if c = '"' then ['\\', '"']
  else if c = '\\' then ['\\', '\\']
  else if c = '\n' then ['\\', 'n']
  else if c = '\r' then ['\\', 'r']
  else if c = '\t' then ['\\', 't']
  else if c.toNat = 8 then ['\\', 'b']
  else if c.toNat = 12 then ['\\', 'f']
  else if 32 ≤ c.toNat && c.toNat ≤ 126 then [c]
  else if c.toNat < 0x10000 then uEsc c.toNat
  else uEsc (0xD800 + (c.toNat - 0x10000) / 0x400) ++
       uEsc (0xDC00 + (c.toNat - 0x10000) % 0x400)

/-- Escape every character of a string body. -/
def escAll : List Char → List Char
  | [] => []
  | c :: r => escapeOne c ++ escAll r

/-- A complete JSON string literal. -/
def strLit (s : String) : List Char := '"' :: (escAll s.data ++ ['"'])

/-- Decimal digit character for `d < 10`. -/
def digCh (d : Nat) : Char := Char.ofNat (48 + d)

/-- Decimal digits of `n`, most significant first (`str(n)` for naturals). -/
def natChars (n : Nat) : List Char :=
  if _h : n < 10 then [digCh n] else natChars (n / 10) ++ [digCh (n % 10)]
termination_by n
decreasing_by omega

/-- `str(i)` for integers: optional minus sign, then decimal digits. -/
def intChars (i : Int) : List Char :=
  (if i < 0 then ['-'] else []) ++ natChars i.natAbs

mutual
/-- `json.dumps` of one value, as a character list. -/
def jsonDumpVal : Json → List Char
  | .null => ("null").data
  | .bool true => ("true").data
  | .bool false => ("false").data
  | .num i => intChars i
  | .str s => strLit s
  | .arr [] => ['[', ']']
  | .arr (x :: xs) => '[' :: (jsonDumpVal x ++ jsonDumpArrTail xs ++ [']'])
  | .obj [] => [lbrace, rbrace]
  | .obj (m :: ms) => lbrace :: (jsonDumpMember m ++ jsonDumpObjTail ms ++ [rbrace])

/-- Remaining array elements, each preceded by the `", "` separator. -/
def jsonDumpArrTail : List Json → List Char
  | [] => []
  | x :: xs => ',' :: ' ' :: (jsonDumpVal x ++ jsonDumpArrTail xs)

/-- One object member: key literal, `": "`, value. -/
def jsonDumpMember : String × Json → List Char
  | (k, v) => strLit k ++ ':' :: ' ' :: jsonDumpVal v

/-- Remaining object members, each preceded by the `", "` separator. -/
def jsonDumpObjTail : List (String × Json) → List Char
  | [] => []
  | m :: ms => ',' :: ' ' :: (jsonDumpMember m ++ jsonDumpObjTail ms)
end

/-- `json.dumps` as a string. -/
def jsonDumps (j : Json) : String := String.mk (jsonDumpVal j)

/-! ### `json.loads`

A model of Python's decoder on the integer-numbered fragment.  It skips
JSON whitespace where Python does, enforces the no-leading-zero rule, and
combines `\uXXXX` surrogate pairs.  It rejects (returns `none`) exactly
where Python raises `json.JSONDecodeError`, and additionally on the
fragments outside the model: fractional/exponent numbers, `NaN`/`Infinity`,
and lone-surrogate escapes. -/

/-- Value of one hexadecimal digit character (either case). -/
def hexVal (c : Char) : Option Nat :=
  if 48 ≤ c.toNat && c.toNat ≤ 57 then some (c.toNat - 48)
  else if 97 ≤ c.toNat && c.toNat ≤ 102 then some (c.toNat - 87)
  else if 65 ≤ c.toNat && c.toNat ≤ 70 then some (c.toNat - 55)
  else none

/-- Value of a four-digit hexadecimal escape body. -/
def hexQuad (a b c d : Char) : Option Nat :=
  match hexVal a, hexVal b, hexVal c, hexVal d with
  | some x, some y, some z, some w => some (((x * 16 + y) * 16 + z) * 16 + w)
  | _, _, _, _ => none

/-- One short escape character (`\"`, `\\`, `\/`, `\b`, `\f`, `\n`, `\r`, `\t`). -/
def escDecode (c : Char) : Option Char :=
  if c = '"' then some '"'
  else if c = '\\' then some '\\'
  else if c = '/' then some '/'
  else if c = 'b' then some (Char.ofNat 8)
  else if c = 'f' then some (Char.ofNat 12)
  else if c = 'n' then some '\n'
  else if c = 'r' then some '\r'
  else if c = 't' then some '\t'
  else none

/-- First string-scanning pass: collect UTF-16-style code units up to the
closing quote; `acc` is reversed.  A `\uXXXX` escape contributes its raw
unit; literal characters contribute their scalar value (never a surrogate). -/
def strUnits (acc : List Nat) : List Char → Option (List Nat × List Char)
  | '"' :: r => some (acc.reverse, r)
  | '\\' :: r =>
    match r with
    | 'u' :: a :: b :: c :: d :: r2 =>
      match hexQuad a b c d with
      | some n => strUnits (n :: acc) r2
      | none => none
    | e :: r2 =>
      match escDecode e with
      | some ch => strUnits (ch.toNat :: acc) r2
      | none => none
    | [] => none
  | c :: r => if c.toNat < 32 then none else strUnits (c.toNat :: acc) r
  | [] => none

/-- Second pass: combine adjacent surrogate pairs into scalar values.  A
lone surrogate makes the model parser fail (Python would keep it; such a
string is not expressible as Lean characters and never arises from
`json.dumps` of a string). -/
def combineUnits : List Nat → Option (List Char)
  | [] => some []
  | n :: rest =>
    if n < 0xD800 ∨ 0xDFFF < n then (combineUnits rest).map (Char.ofNat n :: ·)
    else if 0xDC00 ≤ n then none
    else
      match rest with
      | m :: rest2 =>
        if 0xDC00 ≤ m ∧ m ≤ 0xDFFF then
          (combineUnits rest2).map
            (Char.ofNat (0x10000 + (n - 0xD800) * 0x400 + (m - 0xDC00)) :: ·)
        else none
      | [] => none

/-- Parse a string-literal body after the opening quote. -/
def strTail (r : List Char) : Option (List Char × List Char) :=
  match strUnits [] r with
  | some (us, r2) =>
    match combineUnits us with
    | some cs => some (cs, r2)
    | none => none
  | none => none

/-- Longest digit run at the head of the input. -/
def grabDigits : List Char → List Char × List Char
  | [] => ([], [])
  | c :: r =>
    if isDig c then
      let p := grabDigits r
      (c :: p.1, p.2)
    else ([], c :: r)

/-- Value of a digit run. -/
def digsVal (ds : List Char) : Nat :=
  ds.foldl (fun a c => a * 10 + (c.toNat - 48)) 0

/-- After an integer part, a `.`, `e` or `E` would start a float, which is
outside the model. -/
def numTail : List Char → Bool
  | [] => true
  | c :: _ => !(c = '.' || c = 'e' || c = 'E')

/-- Unsigned decimal integer with Python json's no-leading-zero rule. -/
def parseUNum : List Char → Option (Nat × List Char)
  | [] => none
  | c :: r =>
    if c = '0' then if numTail r then some (0, r) else none
    else if isDig c then
      let p := grabDigits r
      if numTail p.2 then some (digsVal (c :: p.1), p.2) else none
    else none

/-- Signed decimal integer. -/
def parseNum (l : List Char) : Option (Int × List Char) :=
  match l with
  | '-' :: r => (parseUNum r).map (fun p => (-(p.1 : Int), p.2))
  | _ => (parseUNum l).map (fun p => ((p.1 : Int), p.2))

mutual
/-- Parse one JSON value (fuel-driven; callers supply `input length + 1`). -/
def jparseV : Nat → List Char → Option (Json × List Char)
  | 0, _ => none
  | fuel + 1, l =>
    match List.dropWhile pyWs l with
    | 'n' :: 'u' :: 'l' :: 'l' :: r => some (.null, r)
    | 't' :: 'r' :: 'u' :: 'e' :: r => some (.bool true, r)
    | 'f' :: 'a' :: 'l' :: 's' :: 'e' :: r => some (.bool false, r)
    | '"' :: r =>
      match strTail r with
      | some (cs, r2) => some (.str (String.mk cs), r2)
      | none => none
    | '[' :: r =>
      (match List.dropWhile pyWs r with
       | ']' :: r2 => some (.arr [], r2)
       | r1 =>
         match jparseA fuel r1 with
         | some (es, r2) => some (.arr es, r2)
         | none => none)
    | c :: r =>
      if c = lbrace then
        match List.dropWhile pyWs r with
        | [] => none
        | c2 :: r2 =>
          if c2 = rbrace then some (.obj [], r2)
          else
            match jparseO fuel (c2 :: r2) with
            | some (ms, r3) => some (.obj ms, r3)
            | none => none
      else if c = '-' || isDig c then
        match parseNum (c :: r) with
        | some (i, r2) => some (.num i, r2)
        | none => none
      else none
    | [] => none

/-- Parse one-or-more comma-separated array elements up to the closing `]`. -/
def jparseA : Nat → List Char → Option (List Json × List Char)
  | 0, _ => none
  | fuel + 1, l =>
    match jparseV fuel l with
    | none => none
    | some (v, r) =>
      match List.dropWhile pyWs r with
      | ',' :: r2 =>
        (match jparseA fuel r2 with
         | some (vs, r3) => some (v :: vs, r3)
         | none => none)
      | ']' :: r2 => some ([v], r2)
      | _ => none

/-- Parse one-or-more object members up to the closing brace. -/
def jparseO : Nat → List Char → Option (List (String × Json) × List Char)
  | 0, _ => none
  | fuel + 1, l =>
    match List.dropWhile pyWs l with
    | '"' :: r =>
      match strTail r with
      | none => none
      | some (k, r1) =>
        match List.dropWhile pyWs r1 with
        | ':' :: r2 =>
          match jparseV fuel r2 with
          | none => none
          | some (v, r3) =>
            match List.dropWhile pyWs r3 with
            | ',' :: r4 =>
              (match jparseO fuel r4 with
               | some (ms, r5) => some ((String.mk k, v) :: ms, r5)
               | none => none)
            | c :: r4 => if c = rbrace then some ([(String.mk k, v)], r4) else none
            | [] => none
        | _ => none
    | _ => none
end

/-- `json.loads`: parse a complete document, allowing trailing whitespace only. -/
def json_loads (s : String) : Option Json :=
  match jparseV (s.data.length + 1) s.data with
  | some (j, r) => if (List.dropWhile pyWs r).isEmpty then some j else none
  | none => none

/-! ### Codec round trip: characters and digits -/

/-- `Char.ofNat` carries a valid scalar value through to `toNat`. -/
theorem toNat_ofNat_valid (n : Nat) (h : n.isValidChar) : (Char.ofNat n).toNat = n := by
  have h2 : n < 2 ^ 32 := by rcases h with h | ⟨_, h⟩ <;> omega
  simp [Char.ofNat, h, Char.ofNatAux, Char.toNat, UInt32.toNat, BitVec.toNat_ofNat,
    Nat.mod_eq_of_lt h2]

/-- Characters with distinct codepoints are distinct. -/
theorem char_ne_of_toNat_ne {c c' : Char} (h : c.toNat ≠ c'.toNat) : c ≠ c' :=
  fun he => h (he ▸ rfl)

/-- Scalar values below the surrogate range are valid. -/
theorem validChar_of_lt (n : Nat) (h : n < 0xD800) : n.isValidChar := Or.inl h

theorem digCh_toNat (d : Nat) (h : d < 10) : (digCh d).toNat = 48 + d :=
  toNat_ofNat_valid _ (validChar_of_lt _ (by omega))

theorem isDig_digCh (d : Nat) (h : d < 10) : isDig (digCh d) = true := by
  simp [isDig, digCh_toNat d h]; omega

theorem digCh_ne_zeroCh (d : Nat) (h0 : d ≠ 0) (h : d < 10) : digCh d ≠ '0' := by
  apply char_ne_of_toNat_ne
  rw [digCh_toNat d h]
  have hz : ('0').toNat = 48 := rfl
  omega

/-- One-step unfolding of `natChars`. -/
theorem natChars_unfold (n : Nat) :
    natChars n = if n < 10 then [digCh n] else natChars (n / 10) ++ [digCh (n % 10)] := by
  rw [natChars]; split <;> simp

theorem natChars_ne_nil (n : Nat) : natChars n ≠ [] := by
  rw [natChars_unfold]; split <;> simp

theorem natChars_digits (n : Nat) : ∀ c ∈ natChars n, isDig c = true := by
  induction n using Nat.strongRecOn with
  | _ n ih =>
    rw [natChars_unfold]
    intro c hc
    by_cases h : n < 10
    · simp only [if_pos h, List.mem_singleton] at hc
      exact hc ▸ isDig_digCh n h
    · simp only [if_neg h, List.mem_append, List.mem_singleton] at hc
      rcases hc with hc | hc
      · exact ih (n / 10) (by omega) c hc
      · exact hc ▸ isDig_digCh _ (Nat.mod_lt _ (by omega))

theorem digsVal_natChars (n : Nat) : digsVal (natChars n) = n := by
  induction n using Nat.strongRecOn with
  | _ n ih =>
    rw [natChars_unfold]
    by_cases h : n < 10
    · simp [if_pos h, digsVal, digCh_toNat n h]
    · have hrec := ih (n / 10) (by omega)
      simp only [if_neg h, digsVal, List.foldl_append, List.foldl_cons, List.foldl_nil]
      rw [show ∀ ds : List Char, List.foldl (fun a c => a * 10 + (c.toNat - 48)) 0 ds
            = digsVal ds from fun _ => rfl, hrec, digCh_toNat _ (Nat.mod_lt _ (by omega))]
      omega

/-- `natChars n` starts with a digit, and a nonzero one when `n ≠ 0`. -/
theorem natChars_head (n : Nat) :
    ∃ c t, natChars n = c :: t ∧ isDig c = true ∧ (n ≠ 0 → c ≠ '0') := by
  induction n using Nat.strongRecOn with
  | _ n ih =>
    by_cases h : n < 10
    · refine ⟨digCh n, [], by rw [natChars_unfold]; simp [h], isDig_digCh n h, ?_⟩
      intro h0
      exact digCh_ne_zeroCh n h0 h
    · obtain ⟨c, t, he, hd, hz⟩ := ih (n / 10) (by omega)
      refine ⟨c, t ++ [digCh (n % 10)], ?_, hd, fun _ => hz (by omega)⟩
      rw [natChars_unfold, if_neg h, he]
      simp

/-- A list whose head is no digit (or which is empty). -/
def noDigHead : List Char → Bool
  | [] => true
  | c :: _ => !isDig c

/-- A trailing context that cannot extend an integer literal. -/
def numStop : List Char → Bool
  | [] => true
  | c :: _ => !(isDig c || c = '.' || c = 'e' || c = 'E')

theorem noDigHead_of_numStop {r : List Char} (h : numStop r = true) : noDigHead r = true := by
  cases r with
  | nil => rfl
  | cons c t => simp_all [numStop, noDigHead]

theorem numTail_of_numStop {r : List Char} (h : numStop r = true) : numTail r = true := by
  cases r with
  | nil => rfl
  | cons c t => simp_all [numStop, numTail]

theorem grabDigits_stop {r : List Char} (h : noDigHead r = true) : grabDigits r = ([], r) := by
  cases r with
  | nil => rfl
  | cons c t => simp_all [noDigHead, grabDigits]

theorem grabDigits_run (ds : List Char) (hds : ∀ c ∈ ds, isDig c = true)
    (r : List Char) (hr : noDigHead r = true) : grabDigits (ds ++ r) = (ds, r) := by
  induction ds with
  | nil => simpa using grabDigits_stop hr
  | cons c t ih =>
    have hc : isDig c = true := hds c (by simp)
    have ht := ih fun x hx => hds x (by simp [hx])
    simp [grabDigits, hc, ht]

theorem parseUNum_natChars (n : Nat) (rest : List Char) (h : numStop rest = true) :
    parseUNum (natChars n ++ rest) = some (n, rest) := by
  by_cases h0 : n = 0
  · subst h0
    rw [show natChars 0 = ['0'] from by rw [natChars_unfold]; rfl]
    simp [parseUNum, numTail_of_numStop h]
  · obtain ⟨c, t, he, hd, hz⟩ := natChars_head n
    have hz' := hz h0
    rw [he, List.cons_append]
    have htd : ∀ x ∈ t, isDig x = true := fun x hx =>
      natChars_digits n x (he ▸ List.mem_cons_of_mem _ hx)
    have hgrab := grabDigits_run t htd rest (noDigHead_of_numStop h)
    have hval : digsVal (c :: t) = n := by
      have := digsVal_natChars n
      rwa [he] at this
    simp [parseUNum, hz', hd, hgrab, numTail_of_numStop h, hval]

theorem isDig_ne_minus {c : Char} (h : isDig c = true) : c ≠ '-' := by
  intro he
  subst he
  simp [isDig] at h

theorem parseNum_intChars (i : Int) (rest : List Char) (h : numStop rest = true) :
    parseNum (intChars i ++ rest) = some (i, rest) := by
  by_cases hneg : i < 0
  · have harg : intChars i ++ rest = '-' :: (natChars i.natAbs ++ rest) := by
      simp [intChars, hneg]
    rw [harg]
    simp only [parseNum, parseUNum_natChars _ _ h]
    have hi : -((i.natAbs : Nat) : Int) = i := by omega
    simp [hi, abs_of_neg hneg]
  · obtain ⟨c, t, he, hd, _⟩ := natChars_head i.natAbs
    have hm : c ≠ '-' := isDig_ne_minus hd
    have hnat : intChars i = natChars i.natAbs := by simp [intChars, hneg]
    have harg : intChars i ++ rest = c :: (t ++ rest) := by rw [hnat, he]; rfl
    rw [harg, parseNum.eq_def]
    split
    · rename_i heq
      rw [List.cons.injEq] at heq
      exact absurd heq.1 hm
    · rw [← harg, hnat, parseUNum_natChars _ _ h]
      have hi : ((i.natAbs : Nat) : Int) = i := by omega
      simp [hi]

/-! ### Codec round trip: string literals -/

theorem hexVal_hexCh (d : Nat) (h : d < 16) : hexVal (hexCh d) = some d := by
  interval_cases d <;> decide

theorem hexQuad_uEsc_digits (n : Nat) (h : n < 0x10000) :
    hexQuad (hexCh (n / 4096 % 16)) (hexCh (n / 256 % 16))
      (hexCh (n / 16 % 16)) (hexCh (n % 16)) = some n := by
  have h16 : ∀ k : Nat, k % 16 < 16 := fun k => Nat.mod_lt _ (by omega)
  rw [hexQuad, hexVal_hexCh _ (h16 _), hexVal_hexCh _ (h16 _), hexVal_hexCh _ (h16 _),
    hexVal_hexCh _ (h16 _)]
  have harith : ((n / 4096 % 16 * 16 + n / 256 % 16) * 16 + n / 16 % 16) * 16 + n % 16 = n := by
    omega
  show some (((n / 4096 % 16 * 16 + n / 256 % 16) * 16 + n / 16 % 16) * 16 + n % 16) = some n
  rw [harith]

/-- The valid-scalar property, in plain arithmetic form. -/
theorem char_valid_arith (c : Char) :
    c.toNat < 0xD800 ∨ (0xDFFF < c.toNat ∧ c.toNat < 0x110000) := c.valid

/-- The code units `json.dumps` emits for one character: the scalar value
itself, or a surrogate pair for an astral character. -/
def charUnits (c : Char) : List Nat :=
  if c.toNat < 0x10000 then [c.toNat]
  else [0xD800 + (c.toNat - 0x10000) / 0x400, 0xDC00 + (c.toNat - 0x10000) % 0x400]

/-- Code units of a whole string body. -/
def unitsAll : List Char → List Nat
  | [] => []
  | c :: t => charUnits c ++ unitsAll t

/-- Scanning one `\uXXXX` escape pushes exactly its unit. -/
theorem strUnits_u (n : Nat) (h : n < 0x10000) (acc : List Nat) (rest : List Char) :
    strUnits acc ('\\' :: 'u' :: hexCh (n / 4096 % 16) :: hexCh (n / 256 % 16) ::
      hexCh (n / 16 % 16) :: hexCh (n % 16) :: rest) = strUnits (n :: acc) rest := by
  simp only [strUnits, hexQuad_uEsc_digits n h]

/-- Scanning one escaped character yields exactly its code units. -/
theorem strUnits_esc (c : Char) (acc : List Nat) (rest : List Char) :
    strUnits acc (escapeOne c ++ rest) = strUnits ((charUnits c).reverse ++ acc) rest := by
  by_cases h1 : c = '"'
  · subst h1; rfl
  by_cases h2 : c = '\\'
  · subst h2; rfl
  by_cases h3 : c = '\n'
  · subst h3; rfl
  by_cases h4 : c = '\r'
  · subst h4; rfl
  by_cases h5 : c = '\t'
  · subst h5; rfl
  by_cases h6 : c.toNat = 8
  · have hc : c = Char.ofNat 8 := by
      have h := Char.ofNat_toNat c
      rw [h6] at h
      exact h.symm
    subst hc
    rfl
  by_cases h7 : c.toNat = 12
  · have hc : c = Char.ofNat 12 := by
      have h := Char.ofNat_toNat c
      rw [h7] at h
      exact h.symm
    subst hc
    rfl
  by_cases h8 : 32 ≤ c.toNat ∧ c.toNat ≤ 126
  · have hcond8 : (decide (32 ≤ c.toNat) && decide (c.toNat ≤ 126)) = true := by
      simp only [Bool.and_eq_true, decide_eq_true_eq]
      exact h8
    have he : escapeOne c = [c] := by
      simp only [escapeOne, if_neg h1, if_neg h2, if_neg h3, if_neg h4, if_neg h5,
        if_neg h6, if_neg h7, hcond8, if_true]
    have hu : charUnits c = [c.toNat] := by
      rw [charUnits, if_pos (by omega)]
    rw [he, hu, List.cons_append, List.nil_append, strUnits.eq_def]
    have hlt : ¬c.toNat < 32 := by omega
    split
    · rename_i heq
      rw [List.cons.injEq] at heq
      exact absurd heq.1 h1
    · rename_i heq
      rw [List.cons.injEq] at heq
      exact absurd heq.1 h2
    · rename_i c' r' heq
      rw [List.cons.injEq] at heq
      obtain ⟨rfl, rfl⟩ := heq
      simp [hlt]
    · rename_i heq
      exact absurd heq (by simp)
  have hcond8 : (decide (32 ≤ c.toNat) && decide (c.toNat ≤ 126)) = false := by
    simp only [Bool.and_eq_false_iff, decide_eq_false_iff_not]
    omega
  by_cases h9 : c.toNat < 0x10000
  · have he : escapeOne c = uEsc c.toNat := by
      simp only [escapeOne, if_neg h1, if_neg h2, if_neg h3, if_neg h4, if_neg h5,
        if_neg h6, if_neg h7, hcond8, Bool.false_eq_true, if_false, if_pos h9]
    have hu : charUnits c = [c.toNat] := by
      rw [charUnits, if_pos h9]
    rw [he, hu, uEsc]
    simp only [List.cons_append, List.nil_append, List.reverse_singleton]
    rw [strUnits_u c.toNat h9]
  · have hlt : c.toNat < 0x110000 := by
      rcases char_valid_arith c with hv | hv <;> omega
    have hq16 : 0xD800 + (c.toNat - 0x10000) / 0x400 < 0x10000 := by omega
    have hm16 : 0xDC00 + (c.toNat - 0x10000) % 0x400 < 0x10000 := by
      have := Nat.mod_lt (c.toNat - 0x10000) (show 0 < 0x400 from by omega)
      omega
    have he : escapeOne c =
        uEsc (0xD800 + (c.toNat - 0x10000) / 0x400) ++
        uEsc (0xDC00 + (c.toNat - 0x10000) % 0x400) := by
      simp only [escapeOne, if_neg h1, if_neg h2, if_neg h3, if_neg h4, if_neg h5,
        if_neg h6, if_neg h7, hcond8, Bool.false_eq_true, if_false, if_neg h9]
    have hu : charUnits c =
        [0xD800 + (c.toNat - 0x10000) / 0x400, 0xDC00 + (c.toNat - 0x10000) % 0x400] := by
      rw [charUnits, if_neg h9]
    rw [he, hu, uEsc, uEsc]
    simp only [List.cons_append, List.nil_append]
    rw [strUnits_u _ hq16, strUnits_u _ hm16]
    simp

/-- Scanning an escaped body stops exactly at the closing quote. -/
theorem strUnits_escAll (cs : List Char) : ∀ (acc : List Nat) (rest : List Char),
    strUnits acc (escAll cs ++ '"' :: rest) = some (acc.reverse ++ unitsAll cs, rest) := by
  induction cs with
  | nil =>
    intro acc rest
    simp only [escAll, List.nil_append, unitsAll, List.append_nil]
    rfl
  | cons c t ih =>
    intro acc rest
    rw [escAll, List.append_assoc, strUnits_esc, ih]
    simp [unitsAll]

/-- Combining undoes the unit expansion of one character. -/
theorem combineUnits_charUnits (c : Char) (us : List Nat) :
    combineUnits (charUnits c ++ us) = (combineUnits us).map (c :: ·) := by
  by_cases h9 : c.toNat < 0x10000
  · have hval : c.toNat < 0xD800 ∨ 0xDFFF < c.toNat := by
      rcases char_valid_arith c with hv | hv
      · exact Or.inl hv
      · exact Or.inr hv.1
    rw [charUnits, if_pos h9]
    show combineUnits (c.toNat :: us) = (combineUnits us).map (c :: ·)
    cases us with
    | nil =>
      show (if c.toNat < 0xD800 ∨ 0xDFFF < c.toNat then
          (combineUnits []).map (Char.ofNat c.toNat :: ·) else _) = _
      rw [if_pos hval, Char.ofNat_toNat]
    | cons m us2 =>
      show (if c.toNat < 0xD800 ∨ 0xDFFF < c.toNat then
          (combineUnits (m :: us2)).map (Char.ofNat c.toNat :: ·) else _) = _
      rw [if_pos hval, Char.ofNat_toNat]
  · have hlt : c.toNat < 0x110000 := by
      rcases char_valid_arith c with hv | hv <;> omega
    have hmod := Nat.mod_lt (c.toNat - 0x10000) (show 0 < 0x400 from by omega)
    rw [charUnits, if_neg h9]
    simp only [List.cons_append, List.nil_append]
    rw [combineUnits]
    rw [if_neg (by omega), if_neg (by omega)]
    show (if 0xDC00 ≤ 0xDC00 + (c.toNat - 0x10000) % 0x400 ∧
        0xDC00 + (c.toNat - 0x10000) % 0x400 ≤ 0xDFFF then
      (combineUnits us).map
        (Char.ofNat (0x10000 + (0xD800 + (c.toNat - 0x10000) / 0x400 - 0xD800) * 0x400 +
          (0xDC00 + (c.toNat - 0x10000) % 0x400 - 0xDC00)) :: ·) else none)
      = (combineUnits us).map (c :: ·)
    rw [if_pos (by omega)]
    have harith : 0x10000 + (0xD800 + (c.toNat - 0x10000) / 0x400 - 0xD800) * 0x400 +
        (0xDC00 + (c.toNat - 0x10000) % 0x400 - 0xDC00) = c.toNat := by
      have := Nat.div_add_mod (c.toNat - 0x10000) 0x400
      omega
    rw [harith, Char.ofNat_toNat]

/-- Combining undoes the unit expansion of a whole body. -/
theorem combineUnits_unitsAll (cs : List Char) : combineUnits (unitsAll cs) = some cs := by
  induction cs with
  | nil => rfl
  | cons c t ih =>
    rw [unitsAll, combineUnits_charUnits, ih]
    rfl

/-- The string-literal body round trip. -/
theorem strTail_escAll (s : String) (rest : List Char) :
    strTail (escAll s.data ++ '"' :: rest) = some (s.data, rest) := by
  rw [strTail, strUnits_escAll]
  simp only [List.reverse_nil, List.nil_append]
  rw [combineUnits_unitsAll]

/-! ### Codec round trip: values -/

theorem numStop_comma (x : List Char) : numStop (',' :: x) = true := rfl

theorem numStop_rsq (x : List Char) : numStop (']' :: x) = true := rfl

theorem numStop_rbrace (x : List Char) : numStop (rbrace :: x) = true := rfl

theorem pyWs_false_of_ne {c : Char} (h1 : c ≠ ' ') (h2 : c ≠ '\t') (h3 : c ≠ '\n')
    (h4 : c ≠ '\r') : pyWs c = false := by
  simp [pyWs, h1, h2, h3, h4]

theorem dropWhile_neg_head {c : Char} {l : List Char} (h : pyWs c = false) :
    List.dropWhile pyWs (c :: l) = c :: l := by
  rw [List.dropWhile_cons, h]
  simp

/-- A digit is none of the characters the value scanner treats specially. -/
theorem isDig_not_special {c : Char} (h : isDig c = true) :
    pyWs c = false ∧ c ≠ 'n' ∧ c ≠ 't' ∧ c ≠ 'f' ∧ c ≠ '"' ∧ c ≠ '[' ∧
    c ≠ lbrace ∧ c ≠ ']' ∧ c ≠ rbrace ∧ c ≠ '-' := by
  refine ⟨?_, ?_, ?_, ?_, ?_, ?_, ?_, ?_, ?_, isDig_ne_minus h⟩
  · cases hpw : pyWs c with
    | false => rfl
    | true =>
      exfalso
      rw [pyWs, Bool.or_eq_true, Bool.or_eq_true, Bool.or_eq_true] at hpw
      rcases hpw with ((hc | hc) | hc) | hc <;>
        (rw [decide_eq_true_eq] at hc; subst hc; exact absurd h (by decide))
  all_goals
    intro he
    subst he
    exact absurd h (by decide)

/-- Every rendered value begins with a character that is neither whitespace
nor a closing delimiter. -/
theorem dumpVal_head (j : Json) :
    ∃ c t, jsonDumpVal j = c :: t ∧ pyWs c = false ∧ c ≠ ']' ∧ c ≠ rbrace := by
  cases j with
  | null =>
    refine ⟨'n', _, rfl, ?_, ?_, ?_⟩ <;> decide
  | bool b =>
    cases b
    · refine ⟨'f', _, rfl, ?_, ?_, ?_⟩ <;> decide
    · refine ⟨'t', _, rfl, ?_, ?_, ?_⟩ <;> decide
  | str s =>
    refine ⟨'"', _, rfl, ?_, ?_, ?_⟩ <;> decide
  | arr es =>
    cases es
    · refine ⟨'[', _, rfl, ?_, ?_, ?_⟩ <;> decide
    · refine ⟨'[', _, rfl, ?_, ?_, ?_⟩ <;> decide
  | obj ms =>
    cases ms
    · refine ⟨lbrace, _, rfl, ?_, ?_, ?_⟩ <;> decide
    · refine ⟨lbrace, _, rfl, ?_, ?_, ?_⟩ <;> decide
  | num i =>
    by_cases hneg : i < 0
    · refine ⟨'-', natChars i.natAbs, ?_, by decide, by decide, by decide⟩
      simp [jsonDumpVal, intChars, hneg]
    · obtain ⟨c, t, he, hd, _⟩ := natChars_head i.natAbs
      obtain ⟨hws, _, _, _, _, _, _, hr1, hr2, _⟩ := isDig_not_special hd
      refine ⟨c, t, ?_, hws, hr1, hr2⟩
      simp [jsonDumpVal, intChars, hneg, he]

/-- `dropWhile` is the identity in front of any rendered value. -/
theorem dropWhile_dump (j : Json) (x : List Char) :
    List.dropWhile pyWs (jsonDumpVal j ++ x) = jsonDumpVal j ++ x := by
  obtain ⟨c, t, he, hws, _, _⟩ := dumpVal_head j
  rw [he, List.cons_append]
  exact dropWhile_neg_head hws

theorem jparseV_space (f : Nat) (l : List Char) : jparseV f (' ' :: l) = jparseV f l := by
  cases f with
  | zero => rfl
  | succ f =>
    simp only [jparseV, List.dropWhile_cons]
    rfl

theorem jparseA_space (f : Nat) (l : List Char) : jparseA f (' ' :: l) = jparseA f l := by
  cases f with
  | zero => rfl
  | succ f =>
    simp only [jparseA, jparseV_space]

theorem jparseO_space (f : Nat) (l : List Char) : jparseO f (' ' :: l) = jparseO f l := by
  cases f with
  | zero => rfl
  | succ f =>
    simp only [jparseO, List.dropWhile_cons]
    rfl

/-- On a non-special head the value scanner dispatches to the number branch. -/
theorem jparseV_onNum (f : Nat) (c : Char) (t : List Char)
    (hws : pyWs c = false) (hn : c ≠ 'n') (ht : c ≠ 't') (hf : c ≠ 'f')
    (hq : c ≠ '"') (hk : c ≠ '[') (hb : c ≠ lbrace) (hg : (c = '-' || isDig c) = true) :
    jparseV (f + 1) (c :: t) =
      match parseNum (c :: t) with
      | some (i, r2) => some (.num i, r2)
      | none => none := by
  simp only [jparseV]
  rw [dropWhile_neg_head hws]
  have hb' : ¬(c = lbrace) := hb
  split
  · rename_i heq
    rw [List.cons.injEq] at heq
    exact absurd heq.1 hn
  · rename_i heq
    rw [List.cons.injEq] at heq
    exact absurd heq.1 ht
  · rename_i heq
    rw [List.cons.injEq] at heq
    exact absurd heq.1 hf
  · rename_i heq
    rw [List.cons.injEq] at heq
    exact absurd heq.1 hq
  · rename_i heq
    rw [List.cons.injEq] at heq
    exact absurd heq.1 hk
  · rename_i c' r' heq
    rw [List.cons.injEq] at heq
    obtain ⟨rfl, rfl⟩ := heq
    rw [if_neg hb', if_pos hg]
  · rename_i heq
    exact absurd heq (by simp)

mutual
/-- Parsing a rendered value consumes exactly it (`rest` must not extend a
trailing integer literal). -/
theorem rt_v : ∀ (j : Json) (fuel : Nat) (rest : List Char),
    (jsonDumpVal j).length < fuel → numStop rest = true →
    jparseV fuel (jsonDumpVal j ++ rest) = some (j, rest)
  | .null, fuel, rest, hf, _ => by
    cases fuel with
    | zero => exact absurd hf (Nat.not_lt_zero _)
    | succ f =>
      have harg : jsonDumpVal .null ++ rest = 'n' :: 'u' :: 'l' :: 'l' :: rest := rfl
      rw [harg]
      simp only [jparseV]
      rfl
  | .bool true, fuel, rest, hf, _ => by
    cases fuel with
    | zero => exact absurd hf (Nat.not_lt_zero _)
    | succ f =>
      have harg : jsonDumpVal (.bool true) ++ rest = 't' :: 'r' :: 'u' :: 'e' :: rest := rfl
      rw [harg]
      simp only [jparseV]
      rfl
  | .bool false, fuel, rest, hf, _ => by
    cases fuel with
    | zero => exact absurd hf (Nat.not_lt_zero _)
    | succ f =>
      have harg : jsonDumpVal (.bool false) ++ rest
          = 'f' :: 'a' :: 'l' :: 's' :: 'e' :: rest := rfl
      rw [harg]
      simp only [jparseV]
      rfl
  | .num i, fuel, rest, hf, hr => by
    cases fuel with
    | zero => exact absurd hf (Nat.not_lt_zero _)
    | succ f =>
      have hdv : jsonDumpVal (.num i) = intChars i := by
        simp [jsonDumpVal]
      rw [hdv]
      by_cases hneg : i < 0
      · have harg : intChars i ++ rest = '-' :: (natChars i.natAbs ++ rest) := by
          simp [intChars, hneg]
        rw [harg, jparseV_onNum f '-' _ (by decide) (by decide) (by decide) (by decide)
          (by decide) (by decide) (by decide) (by decide), ← harg,
          parseNum_intChars i rest hr]
      · obtain ⟨c, t, he, hd, _⟩ := natChars_head i.natAbs
        obtain ⟨hws, hn, ht', hf', hq, hk, hb, _, _, _⟩ := isDig_not_special hd
        have harg : intChars i ++ rest = c :: (t ++ rest) := by
          simp [intChars, hneg, he]
        rw [harg, jparseV_onNum f c _ hws hn ht' hf' hq hk hb (by simp [hd]), ← harg,
          parseNum_intChars i rest hr]
  | .str s, fuel, rest, hf, _ => by
    cases fuel with
    | zero => exact absurd hf (Nat.not_lt_zero _)
    | succ f =>
      have harg : jsonDumpVal (.str s) ++ rest
          = '"' :: (escAll s.data ++ '"' :: rest) := by
        simp [jsonDumpVal, strLit]
      rw [harg]
      simp only [jparseV]
      show (match strTail (escAll s.data ++ '"' :: rest) with
            | some (cs, r2) => some (Json.str (String.mk cs), r2)
            | none => none) = some (Json.str s, rest)
      rw [strTail_escAll s rest]
  | .arr [], fuel, rest, hf, _ => by
    cases fuel with
    | zero => exact absurd hf (Nat.not_lt_zero _)
    | succ f =>
      have harg : jsonDumpVal (.arr []) ++ rest = '[' :: ']' :: rest := rfl
      rw [harg]
      simp only [jparseV]
      rfl
  | .arr (x :: xs), fuel, rest, hf, _ => by
    cases fuel with
    | zero => exact absurd hf (Nat.not_lt_zero _)
    | succ f =>
      have harg : jsonDumpVal (.arr (x :: xs)) ++ rest
          = '[' :: (jsonDumpVal x ++ (jsonDumpArrTail xs ++ ']' :: rest)) := by
        simp [jsonDumpVal]
      rw [harg]
      simp only [jparseV]
      show (match List.dropWhile pyWs (jsonDumpVal x ++ (jsonDumpArrTail xs ++ ']' :: rest)) with
            | ']' :: r2 => some (Json.arr [], r2)
            | r1 =>
              match jparseA f r1 with
              | some (es, r2) => some (Json.arr es, r2)
              | none => none) = some (Json.arr (x :: xs), rest)
      rw [dropWhile_dump x _]
      have hA : jparseA f (jsonDumpVal x ++ (jsonDumpArrTail xs ++ ']' :: rest))
          = some (x :: xs, rest) := by
        apply rt_a
        simp only [jsonDumpVal, List.length_cons, List.length_append] at hf
        simp only [List.length_append]
        omega
      obtain ⟨c, t, he, _, hrs, _⟩ := dumpVal_head x
      have hshape : jsonDumpVal x ++ (jsonDumpArrTail xs ++ ']' :: rest)
          = c :: (t ++ (jsonDumpArrTail xs ++ ']' :: rest)) := by
        rw [he, List.cons_append]
      rw [hshape] at hA ⊢
      split
      · rename_i heq
        rw [List.cons.injEq] at heq
        exact absurd heq.1 hrs
      · rw [hA]
  | .obj [], fuel, rest, hf, _ => by
    cases fuel with
    | zero => exact absurd hf (Nat.not_lt_zero _)
    | succ f =>
      have harg : jsonDumpVal (.obj []) ++ rest = lbrace :: rbrace :: rest := rfl
      rw [harg]
      simp only [jparseV]
      rfl
  | .obj (m :: ms), fuel, rest, hf, _ => by
    cases fuel with
    | zero => exact absurd hf (Nat.not_lt_zero _)
    | succ f =>
      have harg : jsonDumpVal (.obj (m :: ms)) ++ rest
          = lbrace :: (jsonDumpMember m ++ (jsonDumpObjTail ms ++ rbrace :: rest)) := by
        simp [jsonDumpVal]
      rw [harg]
      have hO : jparseO f (jsonDumpMember m ++ (jsonDumpObjTail ms ++ rbrace :: rest))
          = some (m :: ms, rest) := by
        apply rt_o
        simp only [jsonDumpVal, List.length_cons, List.length_append] at hf
        simp only [List.length_append]
        omega
      obtain ⟨k, v⟩ := m
      have hshape : jsonDumpMember (k, v) ++ (jsonDumpObjTail ms ++ rbrace :: rest)
          = '"' :: (escAll k.data ++ '"' :: (':' :: ' ' :: (jsonDumpVal v ++
              (jsonDumpObjTail ms ++ rbrace :: rest)))) := by
        simp [jsonDumpMember, strLit, List.cons_append, List.append_assoc]
      rw [hshape] at hO ⊢
      simp only [jparseV]
      show (match jparseO f ('"' :: (escAll k.data ++ '"' :: (':' :: ' ' :: (jsonDumpVal v ++
              (jsonDumpObjTail ms ++ rbrace :: rest))))) with
            | some (ms', r3) => some (Json.obj ms', r3)
            | none => none) = some (Json.obj ((k, v) :: ms), rest)
      rw [hO]

/-- Parsing rendered array elements up to the closing bracket. -/
theorem rt_a : ∀ (x : Json) (xs : List Json) (fuel : Nat) (rest : List Char),
    (jsonDumpVal x ++ jsonDumpArrTail xs).length + 1 < fuel →
    jparseA fuel (jsonDumpVal x ++ (jsonDumpArrTail xs ++ ']' :: rest)) = some (x :: xs, rest)
  | x, [], fuel, rest, hf => by
    cases fuel with
    | zero => exact absurd hf (Nat.not_lt_zero _)
    | succ f =>
      simp only [jsonDumpArrTail, List.nil_append]
      simp only [jparseA]
      have hv := rt_v x f (']' :: rest)
        (by simp only [jsonDumpArrTail, List.append_nil, List.length_append] at hf; omega)
        (numStop_rsq rest)
      rw [hv]
      rfl
  | x, y :: ys, fuel, rest, hf => by
    cases fuel with
    | zero => exact absurd hf (Nat.not_lt_zero _)
    | succ f =>
      have harg : jsonDumpVal x ++ (jsonDumpArrTail (y :: ys) ++ ']' :: rest)
          = jsonDumpVal x ++ (',' :: ' ' :: (jsonDumpVal y ++
              (jsonDumpArrTail ys ++ ']' :: rest))) := by
        simp [jsonDumpArrTail, List.append_assoc]
      rw [harg]
      simp only [jparseA]
      simp only [jsonDumpArrTail, List.length_append, List.length_cons] at hf
      have hv := rt_v x f (',' :: ' ' :: (jsonDumpVal y ++ (jsonDumpArrTail ys ++ ']' :: rest)))
        (by omega) (numStop_comma _)
      rw [hv]
      show (match jparseA f (' ' :: (jsonDumpVal y ++ (jsonDumpArrTail ys ++ ']' :: rest))) with
            | some (vs, r3) => some (x :: vs, r3)
            | none => none) = some (x :: y :: ys, rest)
      rw [jparseA_space, rt_a y ys f rest (by simp only [List.length_append]; omega)]

/-- Parsing rendered object members up to the closing brace. -/
theorem rt_o : ∀ (m : String × Json) (ms : List (String × Json)) (fuel : Nat)
    (rest : List Char),
    (jsonDumpMember m ++ jsonDumpObjTail ms).length + 1 < fuel →
    jparseO fuel (jsonDumpMember m ++ (jsonDumpObjTail ms ++ rbrace :: rest))
      = some (m :: ms, rest)
  | (k, v), [], fuel, rest, hf => by
    cases fuel with
    | zero => exact absurd hf (Nat.not_lt_zero _)
    | succ f =>
      have harg : jsonDumpMember (k, v) ++ (jsonDumpObjTail [] ++ rbrace :: rest)
          = '"' :: (escAll k.data ++ '"' :: (':' :: ' ' :: (jsonDumpVal v ++
              rbrace :: rest))) := by
        simp [jsonDumpMember, jsonDumpObjTail, strLit, List.cons_append, List.append_assoc]
      rw [harg]
      simp only [jparseO]
      show (match strTail (escAll k.data ++ '"' :: (':' :: ' ' :: (jsonDumpVal v ++
              rbrace :: rest))) with
            | none => none
            | some (key, r1) =>
              match List.dropWhile pyWs r1 with
              | ':' :: r2 =>
                match jparseV f r2 with
                | none => none
                | some (w, r3) =>
                  match List.dropWhile pyWs r3 with
                  | ',' :: r4 =>
                    (match jparseO f r4 with
                     | some (ms', r5) => some ((String.mk key, w) :: ms', r5)
                     | none => none)
                  | c :: r4 => if c = rbrace then some ([(String.mk key, w)], r4) else none
                  | [] => none
              | _ => none) = some ([(k, v)], rest)
      rw [strTail_escAll k _]
      show (match jparseV f (' ' :: (jsonDumpVal v ++ rbrace :: rest)) with
            | none => none
            | some (w, r3) =>
              match List.dropWhile pyWs r3 with
              | ',' :: r4 =>
                (match jparseO f r4 with
                 | some (ms', r5) => some ((String.mk k.data, w) :: ms', r5)
                 | none => none)
              | c :: r4 => if c = rbrace then some ([(String.mk k.data, w)], r4) else none
              | [] => none) = some ([(k, v)], rest)
      rw [jparseV_space]
      have hv := rt_v v f (rbrace :: rest)
        (by simp only [jsonDumpMember, jsonDumpObjTail, List.append_nil,
              List.length_append, List.length_cons] at hf; omega)
        (numStop_rbrace rest)
      rw [hv]
      rfl
  | (k, v), m2 :: ms2, fuel, rest, hf => by
    cases fuel with
    | zero => exact absurd hf (Nat.not_lt_zero _)
    | succ f =>
      have harg : jsonDumpMember (k, v) ++ (jsonDumpObjTail (m2 :: ms2) ++ rbrace :: rest)
          = '"' :: (escAll k.data ++ '"' :: (':' :: ' ' :: (jsonDumpVal v ++
              ',' :: ' ' :: (jsonDumpMember m2 ++ (jsonDumpObjTail ms2 ++
                rbrace :: rest))))) := by
        simp [jsonDumpMember, jsonDumpObjTail, strLit, List.cons_append, List.append_assoc]
      rw [harg]
      simp only [jparseO]
      show (match strTail (escAll k.data ++ '"' :: (':' :: ' ' :: (jsonDumpVal v ++
              ',' :: ' ' :: (jsonDumpMember m2 ++ (jsonDumpObjTail ms2 ++
                rbrace :: rest))))) with
            | none => none
            | some (key, r1) =>
              match List.dropWhile pyWs r1 with
              | ':' :: r2 =>
                match jparseV f r2 with
                | none => none
                | some (w, r3) =>
                  match List.dropWhile pyWs r3 with
                  | ',' :: r4 =>
                    (match jparseO f r4 with
                     | some (ms', r5) => some ((String.mk key, w) :: ms', r5)
                     | none => none)
                  | c :: r4 => if c = rbrace then some ([(String.mk key, w)], r4) else none
                  | [] => none
              | _ => none) = some ((k, v) :: m2 :: ms2, rest)
      rw [strTail_escAll k _]
      show (match jparseV f (' ' :: (jsonDumpVal v ++ ',' :: ' ' :: (jsonDumpMember m2 ++
              (jsonDumpObjTail ms2 ++ rbrace :: rest)))) with
            | none => none
            | some (w, r3) =>
              match List.dropWhile pyWs r3 with
              | ',' :: r4 =>
                (match jparseO f r4 with
                 | some (ms', r5) => some ((String.mk k.data, w) :: ms', r5)
                 | none => none)
              | c :: r4 => if c = rbrace then some ([(String.mk k.data, w)], r4) else none
              | [] => none) = some ((k, v) :: m2 :: ms2, rest)
      rw [jparseV_space]
      simp only [jsonDumpMember, jsonDumpObjTail, strLit, List.length_append,
        List.length_cons] at hf
      have hv := rt_v v f (',' :: ' ' :: (jsonDumpMember m2 ++ (jsonDumpObjTail ms2 ++
          rbrace :: rest)))
        (by omega) (numStop_comma _)
      rw [hv]
      show (match jparseO f (' ' :: (jsonDumpMember m2 ++ (jsonDumpObjTail ms2 ++
              rbrace :: rest))) with
            | some (ms', r5) => some ((String.mk k.data, v) :: ms', r5)
            | none => none) = some ((k, v) :: m2 :: ms2, rest)
      have hrec : jparseO f (jsonDumpMember m2 ++ (jsonDumpObjTail ms2 ++ rbrace :: rest))
          = some (m2 :: ms2, rest) := by
        apply rt_o
        simp only [List.length_append]
        omega
      rw [jparseO_space, hrec]
end

/-- The JSON codec round trip: the model decoder inverts the model encoder. -/
theorem json_loads_dumps (j : Json) : json_loads (jsonDumps j) = some j := by
  rw [json_loads]
  have hd : (jsonDumps j).data = jsonDumpVal j := rfl
  rw [hd]
  have hv := rt_v j ((jsonDumpVal j).length + 1) [] (by omega) rfl
  rw [List.append_nil] at hv
  rw [hv]
  rfl

/-! ### UTF-8

`sys.stdin.buffer` / `sys.stdout.buffer` carry bytes; the host decodes and
encodes UTF-8 (`str.decode`/`str.encode`).  Bytes are `Nat`s below 256. -/

/-- UTF-8 encoding of one character. -/
def utf8Char (c : Char) : List Nat :=
  let n := c.toNat
  if n < 0x80 then [n]
  else if n < 0x800 then [0xC0 + n / 64, 0x80 + n % 64]
  else if n < 0x10000 then [0xE0 + n / 4096, 0x80 + n / 64 % 64, 0x80 + n % 64]
  else [0xF0 + n / 0x40000, 0x80 + n / 4096 % 64, 0x80 + n / 64 % 64, 0x80 + n % 64]

/-- UTF-8 encoding of a character list. -/
def utf8EncodeL : List Char → List Nat
  | [] => []
  | c :: r => utf8Char c ++ utf8EncodeL r

/-- UTF-8 encoding of a string (`str.encode('utf-8')`). -/
def utf8Encode (s : String) : List Nat := utf8EncodeL s.data

/-- Is `b` a UTF-8 continuation byte? -/
def isCont (b : Nat) : Bool := 0x80 ≤ b && b < 0xC0

/-- Scalar value of a two-byte sequence. -/
def scalar2 (b b2 : Nat) : Nat := (b - 0xC0) * 64 + (b2 - 0x80)

/-- Scalar value of a three-byte sequence. -/
def scalar3 (b b2 b3 : Nat) : Nat := (b - 0xE0) * 4096 + (b2 - 0x80) * 64 + (b3 - 0x80)

/-- Scalar value of a four-byte sequence. -/
def scalar4 (b b2 b3 b4 : Nat) : Nat :=
  (b - 0xF0) * 0x40000 + (b2 - 0x80) * 4096 + (b3 - 0x80) * 64 + (b4 - 0x80)

/-- Valid (not overlong, not surrogate) scalar for a three-byte sequence. -/
def okScalar3 (n : Nat) : Bool :=
  decide (0x800 ≤ n) && (decide (n < 0xD800) || decide (0xDFFF < n))

/-- Valid (not overlong, in range) scalar for a four-byte sequence. -/
def okScalar4 (n : Nat) : Bool := decide (0x10000 ≤ n) && decide (n < 0x110000)

mutual
/-- Strict UTF-8 decoding (`bytes.decode('utf-8')`); rejects overlong forms,
surrogates and out-of-range scalars, as Python does. -/
def utf8DecodeL : List Nat → Option (List Char)
  | [] => some []
  | b :: bs =>
    if b < 0x80 then (utf8DecodeL bs).map (Char.ofNat b :: ·)
    else if b < 0xC2 then none
    else if b < 0xE0 then utf8Dec2 b bs
    else if b < 0xF0 then utf8Dec3 b bs
    else if b < 0xF5 then utf8Dec4 b bs
    else none

/-- Continuation of a two-byte sequence. -/
def utf8Dec2 (b : Nat) : List Nat → Option (List Char)
  | b2 :: bs2 =>
    if isCont b2 then (utf8DecodeL bs2).map (Char.ofNat (scalar2 b b2) :: ·) else none
  | _ => none

/-- Continuation of a three-byte sequence. -/
def utf8Dec3 (b : Nat) : List Nat → Option (List Char)
  | b2 :: b3 :: bs3 =>
    if isCont b2 && isCont b3 && okScalar3 (scalar3 b b2 b3) then
      (utf8DecodeL bs3).map (Char.ofNat (scalar3 b b2 b3) :: ·)
    else none
  | _ => none

/-- Continuation of a four-byte sequence. -/
def utf8Dec4 (b : Nat) : List Nat → Option (List Char)
  | b2 :: b3 :: b4 :: bs4 =>
    if isCont b2 && isCont b3 && isCont b4 && okScalar4 (scalar4 b b2 b3 b4) then
      (utf8DecodeL bs4).map (Char.ofNat (scalar4 b b2 b3 b4) :: ·)
    else none
  | _ => none
end

/-- Decoding one encoded character peels it off the byte stream. -/
theorem utf8DecodeL_char (c : Char) (bs : List Nat) :
    utf8DecodeL (utf8Char c ++ bs) = (utf8DecodeL bs).map (c :: ·) := by
  have hval := char_valid_arith c
  by_cases h1 : c.toNat < 0x80
  · have he : utf8Char c = [c.toNat] := by
      rw [utf8Char]
      simp only [if_pos h1]
    rw [he, List.cons_append, List.nil_append, utf8DecodeL, if_pos h1, Char.ofNat_toNat]
  by_cases h2 : c.toNat < 0x800
  · have he : utf8Char c = [0xC0 + c.toNat / 64, 0x80 + c.toNat % 64] := by
      rw [utf8Char]
      simp only [if_neg h1, if_pos h2]
    have hm := Nat.mod_lt c.toNat (show 0 < 64 from by omega)
    have hcont : isCont (0x80 + c.toNat % 64) = true := by
      simp only [isCont, Bool.and_eq_true, decide_eq_true_eq]
      omega
    have harith : scalar2 (0xC0 + c.toNat / 64) (0x80 + c.toNat % 64) = c.toNat := by
      rw [scalar2]
      have := Nat.div_add_mod c.toNat 64
      omega
    rw [he, List.cons_append, List.cons_append, List.nil_append, utf8DecodeL,
      if_neg (by omega), if_neg (by omega), if_pos (by omega : 0xC0 + c.toNat / 64 < 0xE0),
      utf8Dec2, if_pos hcont, harith, Char.ofNat_toNat]
  by_cases h3 : c.toNat < 0x10000
  · have he : utf8Char c
        = [0xE0 + c.toNat / 4096, 0x80 + c.toNat / 64 % 64, 0x80 + c.toNat % 64] := by
      rw [utf8Char]
      simp only [if_neg h1, if_neg h2, if_pos h3]
    have hm1 := Nat.mod_lt (c.toNat / 64) (show 0 < 64 from by omega)
    have hm2 := Nat.mod_lt c.toNat (show 0 < 64 from by omega)
    have hd1 : c.toNat / 4096 < 16 := by omega
    have harith : scalar3 (0xE0 + c.toNat / 4096) (0x80 + c.toNat / 64 % 64)
        (0x80 + c.toNat % 64) = c.toNat := by
      rw [scalar3]
      have e1 := Nat.div_add_mod c.toNat 64
      have e2 := Nat.div_add_mod (c.toNat / 64) 64
      have e3 : c.toNat / 64 / 64 = c.toNat / 4096 := by
        rw [Nat.div_div_eq_div_mul]
      omega
    have hcond : (isCont (0x80 + c.toNat / 64 % 64) && isCont (0x80 + c.toNat % 64) &&
        okScalar3 (scalar3 (0xE0 + c.toNat / 4096) (0x80 + c.toNat / 64 % 64)
          (0x80 + c.toNat % 64))) = true := by
      rw [harith]
      simp only [isCont, okScalar3, Bool.and_eq_true, Bool.or_eq_true, decide_eq_true_eq]
      refine ⟨⟨⟨by omega, by omega⟩, by omega⟩, by omega, ?_⟩
      rcases hval with hv | hv
      · exact Or.inl hv
      · exact Or.inr hv.1
    rw [he, List.cons_append, List.cons_append, List.cons_append, List.nil_append,
      utf8DecodeL, if_neg (by omega), if_neg (by omega), if_neg (by omega),
      if_pos (by omega : 0xE0 + c.toNat / 4096 < 0xF0),
      utf8Dec3, if_pos hcond, harith, Char.ofNat_toNat]
  · have hup : c.toNat < 0x110000 := by rcases hval with hv | hv <;> omega
    have he : utf8Char c
        = [0xF0 + c.toNat / 0x40000, 0x80 + c.toNat / 4096 % 64, 0x80 + c.toNat / 64 % 64,
           0x80 + c.toNat % 64] := by
      rw [utf8Char]
      simp only [if_neg h1, if_neg h2, if_neg h3]
    have hm1 := Nat.mod_lt (c.toNat / 4096) (show 0 < 64 from by omega)
    have hm2 := Nat.mod_lt (c.toNat / 64) (show 0 < 64 from by omega)
    have hm3 := Nat.mod_lt c.toNat (show 0 < 64 from by omega)
    have hd1 : c.toNat / 0x40000 < 5 := by omega
    have harith : scalar4 (0xF0 + c.toNat / 0x40000) (0x80 + c.toNat / 4096 % 64)
        (0x80 + c.toNat / 64 % 64) (0x80 + c.toNat % 64) = c.toNat := by
      rw [scalar4]
      have e1 := Nat.div_add_mod c.toNat 64
      have e2 := Nat.div_add_mod (c.toNat / 64) 64
      have e3 : c.toNat / 64 / 64 = c.toNat / 4096 := by
        rw [Nat.div_div_eq_div_mul]
      have e4 := Nat.div_add_mod (c.toNat / 4096) 64
      have e5 : c.toNat / 4096 / 64 = c.toNat / 0x40000 := by
        rw [Nat.div_div_eq_div_mul]
      omega
    have hcond : (isCont (0x80 + c.toNat / 4096 % 64) && isCont (0x80 + c.toNat / 64 % 64) &&
        isCont (0x80 + c.toNat % 64) &&
        okScalar4 (scalar4 (0xF0 + c.toNat / 0x40000) (0x80 + c.toNat / 4096 % 64)
          (0x80 + c.toNat / 64 % 64) (0x80 + c.toNat % 64))) = true := by
      rw [harith]
      simp only [isCont, okScalar4, Bool.and_eq_true, decide_eq_true_eq]
      omega
    rw [he, List.cons_append, List.cons_append, List.cons_append, List.cons_append,
      List.nil_append, utf8DecodeL, if_neg (by omega), if_neg (by omega),
      if_neg (by omega), if_neg (by omega),
      if_pos (by omega : 0xF0 + c.toNat / 0x40000 < 0xF5),
      utf8Dec4, if_pos hcond, harith, Char.ofNat_toNat]

/-- The UTF-8 round trip. -/
theorem utf8DecodeL_encode (s : String) : utf8DecodeL (utf8Encode s) = some s.data := by
  rw [utf8Encode]
  obtain ⟨l⟩ := s
  show utf8DecodeL (utf8EncodeL l) = some l
  induction l with
  | nil => rfl
  | cons c r ih =>
    rw [utf8EncodeL, utf8DecodeL_char, ih]
    rfl

/-! ### Message framer (`read_message` / `send_message`)

`struct.pack('<I', n)` / `struct.unpack('<I', b)` over byte lists. -/

/-- Four little-endian bytes of `n` (defined for `n < 2^32`). -/
def pack32le (n : Nat) : List Nat :=
  [n % 256, n / 256 % 256, n / 65536 % 256, n / 16777216 % 256]

/-- The unsigned value of four little-endian bytes. -/
def unpack32le (b : List Nat) : Nat :=
  match b with
  | [b0, b1, b2, b3] => b0 + 256 * b1 + 65536 * b2 + 16777216 * b3
  | _ => 0

theorem unpack32le_pack32le (n : Nat) (h : n < 2 ^ 32) : unpack32le (pack32le n) = n := by
  simp only [pack32le, unpack32le]
  omega

theorem pack32le_unpack32le (b0 b1 b2 b3 : Nat) (h0 : b0 < 256) (h1 : b1 < 256)
    (h2 : b2 < 256) (h3 : b3 < 256) :
    pack32le (unpack32le [b0, b1, b2, b3]) = [b0, b1, b2, b3] := by
  simp only [pack32le, unpack32le, List.cons.injEq, and_true]
  refine ⟨by omega, by omega, by omega, by omega⟩

/-- Exceptions that can escape a handler or the framer into `main`.  Their
`str(e)` renderings are abstracted by `pyErrStr`: no theorem depends on the
exact text Python would produce. -/
inductive PyErr where
  | jsonDecodeError
  | unicodeDecodeError
  | typeError
  | attributeError

/-- Abstracted `str(e)` for a propagated exception. -/
def pyErrStr : PyErr → String
  | .jsonDecodeError => "JSONDecodeError"
  | .unicodeDecodeError => "UnicodeDecodeError"
  | .typeError => "TypeError"
  | .attributeError => "AttributeError"

/-- What one `read_message()` call does to the pending byte stream. -/
inductive ReadResult where
  | exit0
  | exit1
  | perr (e : PyErr)
  | msg (j : Json) (rest : List Nat)

/-- `read_message()`: read a 4-byte little-endian length header, then that
many bytes of UTF-8 JSON.  An empty initial read exits the process with
code 0; a short header exits with code 1; a body that fails UTF-8 or JSON
decoding raises (the exception propagates to `main`). -/
def read_message (stream : List Nat) : ReadResult :=
  let raw_length := stream.take 4
  if raw_length.length = 0 then .exit0
  else if raw_length.length ≠ 4 then .exit1
  else
    let message_length := unpack32le raw_length
    let body := (stream.drop 4).take message_length
    let rest := (stream.drop 4).drop message_length
    match utf8DecodeL body with
    | none => .perr .unicodeDecodeError
    | some cs =>
      match json_loads (String.mk cs) with
      | none => .perr .jsonDecodeError
      | some j => .msg j rest

/-- `send_message()`: length header plus UTF-8 JSON body, flushed.  `none`
models `struct.error` when the body does not fit an unsigned 32-bit length
(`struct.pack` raises). -/
def send_message (message : Json) : Option (List Nat) :=
  let encoded := utf8Encode (jsonDumps message)
  if encoded.length < 2 ^ 32 then some (pack32le encoded.length ++ encoded) else none

/-! ### Validators -/

/-- The characters of `DANGEROUS_PATH_CHARS`: `; & | backtick $ ( ) < >`
newline, carriage return and NUL. -/
def dangerous_path_char (c : Char) : Bool :=
  c = ';' || c = '&' || c = '|' || c = btick || c = '$' || c = '(' || c = ')' ||
  c = '<' || c = '>' || c = '\n' || c = '\r' || c.toNat = 0

/-- The characters of `DANGEROUS_TARGET_CHARS`: the path set plus `\s`. -/
def dangerous_target_char (c : Char) : Bool :=
  dangerous_path_char c || pySpaceChar c

/-- An escaped-quote sequence (`\"` or `\'`) occurs somewhere. -/
def hasEscapedQuote : List Char → Bool
  | [] => false
  | [_] => false
  | a :: b :: r => (a = '\\' && (b = '"' || b = squo)) || hasEscapedQuote (b :: r)

/-- `validate_path`: reject empty paths, shell metacharacters, and escaped
quotes; return the unmodified input otherwise. -/
def validate_path (path : String) : Except String String :=
  if path.data.isEmpty then .error "Path cannot be empty"
  else if path.data.any dangerous_path_char then .error "Path contains invalid characters"
  else if hasEscapedQuote path.data then .error "Path contains invalid escape sequences"
  else .ok path

/-- `validate_ssh_target`: reject empty targets and shell metacharacters
(including whitespace); return the unmodified input otherwise. -/
def validate_ssh_target (target : String) : Except String String :=
  if target.data.isEmpty then .error "SSH target cannot be empty"
  else if target.data.any dangerous_target_char then
    .error "SSH target contains invalid characters"
  else .ok target

/-- `re.match(r'^[a-zA-Z0-9_-]+$', s)` is truthy: `$` also matches just
before a single trailing newline, so `s` is a nonempty run of identifier
characters optionally followed by one `\n`. -/
def idChar (c : Char) : Bool :=
  (97 ≤ c.toNat && c.toNat ≤ 122) || (65 ≤ c.toNat && c.toNat ≤ 90) ||
  (48 ≤ c.toNat && c.toNat ≤ 57) || c = '_' || c = '-'

/-- Python `re.match` semantics for the identifier pattern. -/
def pyMatchId (s : String) : Bool :=
  let body := if s.data.getLast? = some '\n' then s.data.dropLast else s.data
  !body.isEmpty && body.all idChar

/-- Full-match semantics (`re.fullmatch`): every character is an identifier
character and the string is nonempty. -/
def idFullMatch (s : String) : Bool :=
  !s.data.isEmpty && s.data.all idChar

/-! ### Requests, transport invocations and responses

Requests are modelled with optional string fields (the extension sends
strings; `ssh_port` may be a number).  Responses are `Json` objects built
in the same key order as the Python dict literals.  Each handler returns
its response (or a propagating exception) together with the list of
external transport invocations it issued, in order. -/

structure Req where
  ssh_target : Option String := none
  remote_path : Option String := none
  content : Option String := none
  plan_data : Option String := none
  plan_id : Option String := none
  settings_json : Option String := none
  session_id : Option String := none
  timestamp : Option String := none
  command : Option String := none
  overwrite : Bool := false
  ssh_key : Option String := none
  ssh_port : Option Nat := none

/-- Python truthiness of an optional string field. -/
def truthy : Option String → Bool
  | none => false
  | some s => !s.data.isEmpty

/-- The local file given to `scp`: either a temp file carrying `content`
written by the handler, or a file shipped with the host (`watch.sh`). -/
inductive ScpSrc where
  | temp (content : String)
  | localFile (name : String)

/-- One external transport invocation. -/
inductive RemoteCall where
  | ssh (opts : List String) (target : String) (cmd : String)
  | scp (opts : List String) (src : ScpSrc) (dest : String)

/-- The outcome of one `subprocess.run` of the transport: a completed
process (any exit code), `subprocess.TimeoutExpired`, or
`FileNotFoundError` (the binary is missing). -/
inductive RunOutcome where
  | completed (rc : Int) (stdout : String) (stderr : String)
  | timedOut
  | oserr

/-- The handler environment: the transport oracle and whether `watch.sh`
exists next to the host script. -/
structure Env where
  run : RemoteCall → RunOutcome
  watch_script_exists : Bool

/-- `SSH_TIMEOUT` (seconds). -/
def SSH_TIMEOUT : Nat := 5

/-- `SCP_TIMEOUT` (seconds). -/
def SCP_TIMEOUT : Nat := 30

/-- The fixed non-interactive/connection-reuse options. -/
def commonSshOpts : List String :=
  ["-o", "BatchMode=yes", "-o", "StrictHostKeyChecking=accept-new",
   "-o", "ConnectTimeout=" ++ toString SSH_TIMEOUT, "-o", "ControlMaster=auto",
   "-o", "ControlPath=/tmp/plandrop-%r@%h:%p", "-o", "ControlPersist=60"]

/-- `['-i', key]` when a key is (truthily) given. -/
def keyArgs : Option String → List String
  | none => []
  | some k => if k.data.isEmpty then [] else ["-i", k]

/-- `[flag, str(port)]` when a port is (truthily) given. -/
def portArgs (flag : String) : Option Nat → List String
  | none => []
  | some p => if p = 0 then [] else [flag, toString p]

/-- `build_ssh_args` (the `ssh_target` parameter is unused in the source too). -/
def build_ssh_args (_ssh_target : String) (ssh_key : Option String)
    (ssh_port : Option Nat) : List String :=
  keyArgs ssh_key ++ portArgs "-p" ssh_port ++ commonSshOpts

/-- `build_scp_args` (port flag `-P`). -/
def build_scp_args (_ssh_target : String) (ssh_key : Option String)
    (ssh_port : Option Nat) : List String :=
  keyArgs ssh_key ++ portArgs "-P" ssh_port ++ commonSshOpts

/-- An `error` response. -/
def errResp (m : String) : Json :=
  .obj [("status", .str "error"), ("message", .str m)]

/-- Modelled `str(e)` of the `ValueError` raised by `int()` on junk. -/
def valueErrorStr : String := "invalid literal for int() with base 10"

/-- Modelled `str(e)` of a `FileNotFoundError` caught by a bare
`except Exception` (handlers without a dedicated `FileNotFoundError` arm). -/
def fileNotFoundStr : String := "No such file or directory"

/-- String field of a decoded request object. -/
def jStr (j : Json) (k : String) : Option String :=
  match dictGet j k with
  | some (.str s) => some s
  | _ => none

/-- Numeric field of a decoded request object, as a natural. -/
def jNat (j : Json) (k : String) : Option Nat :=
  match dictGet j k with
  | some (.num i) => if 0 ≤ i then some i.toNat else none
  | _ => none

/-- The status string of a handler result (`none` when the handler raised
or built a malformed response). -/
def hstatus (h : Except PyErr Json × List RemoteCall) : Option String :=
  match h.1 with
  | .ok r => jStr r "status"
  | .error _ => none

/-- Abstraction of `datetime.fromtimestamp(mtime).strftime(...)`: the local
time rendering is environment-dependent and not modelled; no claim depends
on this text. -/
def fmtTime (mtime : Int) : String := toString mtime

/-- Python `int(s)` on a string: optional sign, decimal digits, surrounding
whitespace allowed (underscore grouping is not modelled). -/
def pyInt (s : String) : Option Int :=
  match pyStripL s.data with
  | '-' :: ds => if !ds.isEmpty && ds.all isDig then some (-(digsVal ds : Int)) else none
  | '+' :: ds => if !ds.isEmpty && ds.all isDig then some ((digsVal ds : Int)) else none
  | ds => if !ds.isEmpty && ds.all isDig then some ((digsVal ds : Int)) else none

/-- `os.path.dirname` (POSIX). -/
def pyDirname (p : String) : String :=
  let revHead := p.data.reverse.dropWhile (fun c => !(c = '/'))
  let head := revHead.reverse
  if head.isEmpty then ""
  else if head.all (fun c => c = '/') then String.mk head
  else String.mk ((head.reverse.dropWhile (fun c => c = '/')).reverse)

/-- The single-quote character as a string. -/
def squoS : String := String.mk [squo]

/-- The replacement Python uses to escape a single quote inside a
single-quoted shell word in `reset_session`: `'\''`. -/
def resetQuoteRep : List Char := [squo, '\\', squo, squo]

/-- `shlex.quote`'s replacement for a single quote: `'"'"'`. -/
def shlexQuoteRep : List Char := [squo, '"', squo, '"', squo]

/-- Characters `shlex.quote` considers safe: ASCII alphanumerics, underscore,
and `@ % + = : , . /` and the hyphen (its `_find_unsafe` regex with `re.ASCII`). -/
def shlexSafeChar (c : Char) : Bool :=
  (97 ≤ c.toNat && c.toNat ≤ 122) || (65 ≤ c.toNat && c.toNat ≤ 90) ||
  (48 ≤ c.toNat && c.toNat ≤ 57) || c = '_' || c = '@' || c = '%' || c = '+' ||
  c = '=' || c = ':' || c = ',' || c = '.' || c = '/' || c = '-'

/-- `shlex.quote`. -/
def shlex_quote (s : String) : String :=
  if s.data.isEmpty then squoS ++ squoS
  else if s.data.all shlexSafeChar then s
  else squoS ++ String.mk (replChar squo shlexQuoteRep s.data) ++ squoS

/-- The run_command allow-list check: strip, drop a leading `cd … &&`
prefix, then require `plandrop-history`, or `python3 ` with `history.py`
somewhere in the remainder. -/
def allowed_run_command (command : String) : Bool :=
  let c0 := pyStripL command.data
  let cmd_to_check :=
    if leadsWith ("cd ").data c0 && hasSub ("&&").data c0 then
      pyStripL (afterFirst ("&&").data c0)
    else c0
  leadsWith ("plandrop-history").data cmd_to_check ||
    (leadsWith ("python3 ").data cmd_to_check && hasSub ("history.py").data cmd_to_check)

/-! ### Action handlers -/

/-- `action_test_conn`. -/
def action_test_conn (env : Env) (data : Req) : Except PyErr Json × List RemoteCall :=
  if !truthy data.ssh_target then (.ok (errResp "Missing ssh_target"), [])
  else
    let tgt := data.ssh_target.getD ""
    match validate_ssh_target tgt with
    | .error e => (.ok (errResp e), [])
    | .ok _ =>
      let call1 := RemoteCall.ssh (build_ssh_args tgt data.ssh_key data.ssh_port) tgt "echo ok"
      match env.run call1 with
      | .timedOut => (.ok (errResp "Connection timed out"), [call1])
      | .oserr => (.ok (errResp "SSH command not found on system"), [call1])
      | .completed rc _ err =>
        if rc = 0 then
          let call2 := RemoteCall.ssh (build_ssh_args tgt data.ssh_key data.ssh_port) tgt
            "hostname"
          match env.run call2 with
          | .timedOut => (.ok (errResp "Connection timed out"), [call1, call2])
          | .oserr => (.ok (errResp "SSH command not found on system"), [call1, call2])
          | .completed rc2 out2 _ =>
            let hostname := if rc2 = 0 then pyStrip out2 else tgt
            (.ok (.obj [("status", .str "success"),
              ("message", .str ("Connected to " ++ tgt ++ " (" ++ hostname ++ ")"))]),
             [call1, call2])
        else (.ok (errResp (orElseStr (pyStrip err) "Connection failed")), [call1])

/-- `action_check_file`. -/
def action_check_file (env : Env) (data : Req) : Except PyErr Json × List RemoteCall :=
  if !truthy data.ssh_target || !truthy data.remote_path then
    (.ok (errResp "Missing ssh_target or remote_path"), [])
  else
    let tgt := data.ssh_target.getD ""
    let rp := data.remote_path.getD ""
    match validate_ssh_target tgt with
    | .error e => (.ok (errResp e), [])
    | .ok _ =>
    match validate_path rp with
    | .error e => (.ok (errResp e), [])
    | .ok _ =>
      let stat_cmd := "stat -c \"%s %Y\" \"" ++ rp ++ "\" 2>/dev/null || " ++
        "stat -f \"%z %m\" \"" ++ rp ++ "\" 2>/dev/null"
      let call := RemoteCall.ssh (build_ssh_args tgt data.ssh_key data.ssh_port) tgt stat_cmd
      match env.run call with
      | .timedOut => (.ok (errResp "Connection timed out"), [call])
      | .oserr => (.ok (errResp fileNotFoundStr), [call])
      | .completed rc out _ =>
        if rc = 0 && !(pyStrip out).data.isEmpty then
          match pySplitWs (pyStrip out).data with
          | p0 :: p1 :: _ =>
            match pyInt (String.mk p0), pyInt (String.mk p1) with
            | some size, some mtime =>
              (.ok (.obj [("status", .str "success"), ("exists", .bool true),
                ("size", .num size), ("modified", .str (fmtTime mtime))]), [call])
            | _, _ => (.ok (errResp valueErrorStr), [call])
          | _ => (.ok (.obj [("status", .str "success"), ("exists", .bool false)]), [call])
        else (.ok (.obj [("status", .str "success"), ("exists", .bool false)]), [call])

/-- `action_send_file`. -/
def action_send_file (env : Env) (data : Req) : Except PyErr Json × List RemoteCall :=
  if !truthy data.ssh_target || !truthy data.remote_path || data.content.isNone then
    (.ok (errResp "Missing ssh_target, remote_path, or content"), [])
  else
    let tgt := data.ssh_target.getD ""
    let rp := data.remote_path.getD ""
    let content := data.content.getD ""
    match validate_ssh_target tgt with
    | .error e => (.ok (errResp e), [])
    | .ok _ =>
    match validate_path rp with
    | .error e => (.ok (errResp e), [])
    | .ok _ =>
      let scpStep : List RemoteCall → Except PyErr Json × List RemoteCall := fun calls =>
        let scpCall := RemoteCall.scp (build_scp_args tgt data.ssh_key data.ssh_port)
          (.temp content) (tgt ++ ":" ++ rp)
        match env.run scpCall with
        | .timedOut => (.ok (errResp "Transfer timed out"), calls ++ [scpCall])
        | .oserr => (.ok (errResp "SCP command not found on system"), calls ++ [scpCall])
        | .completed rc _ err =>
          if rc = 0 then
            (.ok (.obj [("status", .str "success"),
              ("message", .str ("Sent to " ++ tgt ++ ":" ++ rp))]), calls ++ [scpCall])
          else (.ok (errResp (orElseStr (pyStrip err) "SCP failed")), calls ++ [scpCall])
      let remote_dir := pyDirname rp
      if remote_dir.data.isEmpty then scpStep []
      else
        let mkCall := RemoteCall.ssh (build_ssh_args tgt data.ssh_key data.ssh_port) tgt
          ("mkdir -p \"" ++ remote_dir ++ "\"")
        match env.run mkCall with
        | .timedOut => (.ok (errResp "Transfer timed out"), [mkCall])
        | .oserr => (.ok (errResp "SCP command not found on system"), [mkCall])
        | .completed rc _ err =>
          if rc ≠ 0 then
            (.ok (errResp ("Cannot create directory: " ++
              orElseStr (pyStrip err) "Failed to create directory")), [mkCall])
          else scpStep [mkCall]

/-- `action_init_queue`. -/
def action_init_queue (env : Env) (data : Req) : Except PyErr Json × List RemoteCall :=
  if !truthy data.ssh_target || !truthy data.remote_path then
    (.ok (errResp "Missing ssh_target or remote_path"), [])
  else
    let tgt := data.ssh_target.getD ""
    let rp := data.remote_path.getD ""
    match validate_ssh_target tgt with
    | .error e => (.ok (errResp e), [])
    | .ok _ =>
    match validate_path rp with
    | .error e => (.ok (errResp e), [])
    | .ok _ =>
      let pd := rp ++ "/.plandrop"
      let mkdir_cmd := "mkdir -p " ++ pd ++ "/plans " ++ pd ++ "/responses " ++ pd ++ "/completed"
      let call1 := RemoteCall.ssh (build_ssh_args tgt data.ssh_key data.ssh_port) tgt mkdir_cmd
      match env.run call1 with
      | .timedOut => (.ok (errResp "Connection timed out"), [call1])
      | .oserr => (.ok (errResp fileNotFoundStr), [call1])
      | .completed rc _ err =>
        if rc ≠ 0 then
          (.ok (errResp (orElseStr (pyStrip err) "Failed to create directories")), [call1])
        else if !env.watch_script_exists then
          (.ok (errResp "watch.sh not found in native-host directory"), [call1])
        else
          let call2 := RemoteCall.scp (build_scp_args tgt data.ssh_key data.ssh_port)
            (.localFile "watch.sh") (tgt ++ ":" ++ pd ++ "/watch.sh")
          match env.run call2 with
          | .timedOut => (.ok (errResp "Connection timed out"), [call1, call2])
          | .oserr => (.ok (errResp fileNotFoundStr), [call1, call2])
          | .completed rc2 _ err2 =>
            if rc2 ≠ 0 then
              (.ok (errResp (orElseStr (pyStrip err2) "Failed to copy watch.sh")),
               [call1, call2])
            else
              let call3 := RemoteCall.ssh (build_ssh_args tgt data.ssh_key data.ssh_port) tgt
                ("chmod +x \"" ++ pd ++ "/watch.sh\"")
              match env.run call3 with
              | .timedOut => (.ok (errResp "Connection timed out"), [call1, call2, call3])
              | .oserr => (.ok (errResp fileNotFoundStr), [call1, call2, call3])
              | .completed rc3 _ err3 =>
                if rc3 ≠ 0 then
                  (.ok (errResp (orElseStr (pyStrip err3)
                    "Failed to make watch.sh executable")), [call1, call2, call3])
                else
                  (.ok (.obj [("status", .str "success"),
                    ("message", .str ("Queue initialized at " ++ pd))]),
                   [call1, call2, call3])

/-- `action_send_plan`. -/
def action_send_plan (env : Env) (data : Req) : Except PyErr Json × List RemoteCall :=
  if !truthy data.ssh_target || !truthy data.remote_path || !truthy data.plan_data then
    (.ok (errResp "Missing ssh_target, remote_path, or plan_data"), [])
  else
    let tgt := data.ssh_target.getD ""
    let rp := data.remote_path.getD ""
    let pd := data.plan_data.getD ""
    match validate_ssh_target tgt with
    | .error e => (.ok (errResp e), [])
    | .ok _ =>
    match validate_path rp with
    | .error e => (.ok (errResp e), [])
    | .ok _ =>
      match json_loads pd with
      | none => (.ok (errResp ("Invalid plan JSON: " ++ pyErrStr .jsonDecodeError)), [])
      | some plan =>
        match plan with
        | .obj ms =>
          match lookupLast "id" ms with
          | none => (.ok (errResp "Plan data missing 'id' field"), [])
          | some jv =>
            if !truthyJson jv then (.ok (errResp "Plan data missing 'id' field"), [])
            else
              match jv with
              | .str plan_id =>
                if !pyMatchId plan_id then (.ok (errResp "Invalid plan_id format"), [])
                else
                  let dest := rp ++ "/.plandrop/plans/" ++ plan_id ++ ".json"
                  let call := RemoteCall.scp (build_scp_args tgt data.ssh_key data.ssh_port)
                    (.temp pd) (tgt ++ ":" ++ dest)
                  match env.run call with
                  | .timedOut => (.ok (errResp "Transfer timed out"), [call])
                  | .oserr => (.ok (errResp fileNotFoundStr), [call])
                  | .completed rc _ err =>
                    if rc = 0 then
                      (.ok (.obj [("status", .str "success"), ("id", .str plan_id)]), [call])
                    else (.ok (errResp (orElseStr (pyStrip err) "SCP failed")), [call])
              | _ => (.error .typeError, [])
        | _ => (.error .attributeError, [])

/-- `action_poll_responses`. -/
def action_poll_responses (env : Env) (data : Req) : Except PyErr Json × List RemoteCall :=
  if !truthy data.ssh_target || !truthy data.remote_path || !truthy data.plan_id then
    (.ok (errResp "Missing ssh_target, remote_path, or plan_id"), [])
  else
    let tgt := data.ssh_target.getD ""
    let rp := data.remote_path.getD ""
    let pid := data.plan_id.getD ""
    match validate_ssh_target tgt with
    | .error e => (.ok (errResp e), [])
    | .ok _ =>
    match validate_path rp with
    | .error e => (.ok (errResp e), [])
    | .ok _ =>
      if !pyMatchId pid then (.ok (errResp "Invalid plan_id format"), [])
      else
        let response_file := rp ++ "/.plandrop/responses/" ++ pid ++ ".jsonl"
        let call := RemoteCall.ssh (build_ssh_args tgt data.ssh_key data.ssh_port) tgt
          ("cat \"" ++ response_file ++ "\" 2>/dev/null")
        match env.run call with
        | .timedOut => (.ok (errResp "Connection timed out"), [call])
        | .oserr => (.ok (errResp fileNotFoundStr), [call])
        | .completed _ out _ =>
          if !(pyStrip out).data.isEmpty then
            (.ok (.obj [("status", .str "ok"), ("content", .str out)]), [call])
          else (.ok (.obj [("status", .str "empty")]), [call])

/-- `action_read_heartbeat`. -/
def action_read_heartbeat (env : Env) (data : Req) : Except PyErr Json × List RemoteCall :=
  if !truthy data.ssh_target || !truthy data.remote_path then
    (.ok (errResp "Missing ssh_target or remote_path"), [])
  else
    let tgt := data.ssh_target.getD ""
    let rp := data.remote_path.getD ""
    match validate_ssh_target tgt with
    | .error e => (.ok (errResp e), [])
    | .ok _ =>
    match validate_path rp with
    | .error e => (.ok (errResp e), [])
    | .ok _ =>
      let heartbeat_file := rp ++ "/.plandrop/heartbeat"
      let call := RemoteCall.ssh (build_ssh_args tgt data.ssh_key data.ssh_port) tgt
        ("cat \"" ++ heartbeat_file ++ "\" 2>/dev/null")
      match env.run call with
      | .timedOut => (.ok (errResp "Connection timed out"), [call])
      | .oserr => (.ok (errResp fileNotFoundStr), [call])
      | .completed _ out _ =>
        let timestamp := pyStrip out
        if !timestamp.data.isEmpty then
          (.ok (.obj [("status", .str "ok"), ("timestamp", .str timestamp)]), [call])
        else (.ok (.obj [("status", .str "not_running")]), [call])

/-- `action_write_settings`. -/
def action_write_settings (env : Env) (data : Req) : Except PyErr Json × List RemoteCall :=
  if !truthy data.ssh_target || !truthy data.remote_path || !truthy data.settings_json then
    (.ok (errResp "Missing ssh_target, remote_path, or settings_json"), [])
  else
    let tgt := data.ssh_target.getD ""
    let rp := data.remote_path.getD ""
    let sj := data.settings_json.getD ""
    match validate_ssh_target tgt with
    | .error e => (.ok (errResp e), [])
    | .ok _ =>
    match validate_path rp with
    | .error e => (.ok (errResp e), [])
    | .ok _ =>
      match json_loads sj with
      | none => (.ok (errResp ("Invalid settings JSON: " ++ pyErrStr .jsonDecodeError)), [])
      | some _ =>
        let claude_dir := rp ++ "/.claude"
        let mkCall := RemoteCall.ssh (build_ssh_args tgt data.ssh_key data.ssh_port) tgt
          ("mkdir -p \"" ++ claude_dir ++ "\"")
        match env.run mkCall with
        | .timedOut => (.ok (errResp "Connection timed out"), [mkCall])
        | .oserr => (.ok (errResp fileNotFoundStr), [mkCall])
        | .completed rc _ err =>
          if rc ≠ 0 then
            (.ok (errResp (orElseStr (pyStrip err) "Failed to create .claude directory")),
             [mkCall])
          else
            let scpCall := RemoteCall.scp (build_scp_args tgt data.ssh_key data.ssh_port)
              (.temp sj) (tgt ++ ":" ++ claude_dir ++ "/settings.json")
            match env.run scpCall with
            | .timedOut => (.ok (errResp "Connection timed out"), [mkCall, scpCall])
            | .oserr => (.ok (errResp fileNotFoundStr), [mkCall, scpCall])
            | .completed rc2 _ err2 =>
              if rc2 = 0 then
                (.ok (.obj [("status", .str "success"), ("message", .str "Settings written")]),
                 [mkCall, scpCall])
              else (.ok (errResp (orElseStr (pyStrip err2) "SCP failed")), [mkCall, scpCall])

/-- `action_read_session`. -/
def action_read_session (env : Env) (data : Req) : Except PyErr Json × List RemoteCall :=
  if !truthy data.ssh_target || !truthy data.remote_path then
    (.ok (errResp "Missing ssh_target or remote_path"), [])
  else
    let tgt := data.ssh_target.getD ""
    let rp := data.remote_path.getD ""
    match validate_ssh_target tgt with
    | .error e => (.ok (errResp e), [])
    | .ok _ =>
    match validate_path rp with
    | .error e => (.ok (errResp e), [])
    | .ok _ =>
      let session_file := rp ++ "/.plandrop/session_id"
      let call := RemoteCall.ssh (build_ssh_args tgt data.ssh_key data.ssh_port) tgt
        ("cat \"" ++ session_file ++ "\" 2>/dev/null")
      match env.run call with
      | .timedOut => (.ok (errResp "Connection timed out"), [call])
      | .oserr => (.ok (errResp fileNotFoundStr), [call])
      | .completed _ out _ =>
        let session_id := pyStrip out
        if !session_id.data.isEmpty then
          (.ok (.obj [("status", .str "ok"), ("session_id", .str session_id)]), [call])
        else (.ok (.obj [("status", .str "empty")]), [call])

/-- The compound remote command `action_reset_session` issues: an optional
history-append (with the JSON entry single-quote-escaped) conditionally
followed by the `session_id` deletion. -/
def resetSessionCmd (rp : String) (session_id timestamp : Option String) : String :=
  let plandrop_dir := rp ++ "/.plandrop"
  let session_file := plandrop_dir ++ "/session_id"
  let history_file := plandrop_dir ++ "/session_history.jsonl"
  let archive_cmd :=
    if truthy session_id then
      let entry := jsonDumps (.obj [("session_id", .str (session_id.getD "")),
        ("ended", .str (if truthy timestamp then timestamp.getD "" else ""))])
      let entry_escaped := String.mk (replChar squo resetQuoteRep entry.data)
      "echo " ++ squoS ++ entry_escaped ++ squoS ++ " >> \"" ++ history_file ++ "\" && "
    else ""
  archive_cmd ++ ("rm -f \"" ++ session_file ++ "\"")

/-- `action_reset_session`. -/
def action_reset_session (env : Env) (data : Req) : Except PyErr Json × List RemoteCall :=
  if !truthy data.ssh_target || !truthy data.remote_path then
    (.ok (errResp "Missing ssh_target or remote_path"), [])
  else
    let tgt := data.ssh_target.getD ""
    let rp := data.remote_path.getD ""
    match validate_ssh_target tgt with
    | .error e => (.ok (errResp e), [])
    | .ok _ =>
    match validate_path rp with
    | .error e => (.ok (errResp e), [])
    | .ok _ =>
      let call := RemoteCall.ssh (build_ssh_args tgt data.ssh_key data.ssh_port) tgt
        (resetSessionCmd rp data.session_id data.timestamp)
      match env.run call with
      | .timedOut => (.ok (errResp "Connection timed out"), [call])
      | .oserr => (.ok (errResp fileNotFoundStr), [call])
      | .completed rc _ err =>
        if rc = 0 then
          (.ok (.obj [("status", .str "success"), ("message", .str "Session reset")]), [call])
        else (.ok (errResp (orElseStr (pyStrip err) "Failed to reset session")), [call])

/-- `action_run_command`. -/
def action_run_command (env : Env) (data : Req) : Except PyErr Json × List RemoteCall :=
  if !truthy data.ssh_target || !truthy data.remote_path then
    (.ok (errResp "Missing ssh_target or remote_path"), [])
  else
    let tgt := data.ssh_target.getD ""
    let rp := data.remote_path.getD ""
    let command := data.command.getD ""
    match validate_ssh_target tgt with
    | .error e => (.ok (errResp e), [])
    | .ok _ =>
    match validate_path rp with
    | .error e => (.ok (errResp e), [])
    | .ok _ =>
      if !allowed_run_command command then
        (.ok (errResp "Only plandrop-history commands allowed"), [])
      else
        let call := RemoteCall.ssh (build_ssh_args tgt data.ssh_key data.ssh_port) tgt command
        match env.run call with
        | .timedOut => (.ok (errResp "Command timed out"), [call])
        | .oserr => (.ok (errResp fileNotFoundStr), [call])
        | .completed rc out err =>
          if rc = 0 then
            (.ok (.obj [("status", .str "ok"), ("output", .str out), ("error", .str err)]),
             [call])
          else
            (.ok (.obj [("status", .str "error"), ("output", .str out),
              ("error", .str (if err.data.isEmpty then "Exit code: " ++ toString rc else err))]),
             [call])

/-- `action_interrupt`. -/
def action_interrupt (env : Env) (data : Req) : Except PyErr Json × List RemoteCall :=
  if !truthy data.ssh_target || !truthy data.remote_path then
    (.ok (errResp "Missing ssh_target or remote_path"), [])
  else
    let tgt := data.ssh_target.getD ""
    let rp := data.remote_path.getD ""
    match validate_ssh_target tgt with
    | .error e => (.ok (errResp e), [])
    | .ok _ =>
    match validate_path rp with
    | .error e => (.ok (errResp e), [])
    | .ok _ =>
      let interrupt_path := rp ++ "/.plandrop/interrupt"
      let call := RemoteCall.ssh (build_ssh_args tgt data.ssh_key data.ssh_port) tgt
        ("touch " ++ shlex_quote interrupt_path)
      match env.run call with
      | .timedOut => (.ok (errResp "SSH connection timed out"), [call])
      | .oserr => (.ok (errResp fileNotFoundStr), [call])
      | .completed rc _ err =>
        if rc = 0 then (.ok (.obj [("status", .str "interrupt_sent")]), [call])
        else
          (.ok (errResp (if err.data.isEmpty then "Exit code: " ++ toString rc else err)),
           [call])

/-! ### Dispatcher and main loop -/

/-- Build the typed request view of a decoded message object. -/
def reqOfJson (j : Json) : Req :=
  { ssh_target := jStr j "ssh_target", remote_path := jStr j "remote_path",
    content := jStr j "content", plan_data := jStr j "plan_data",
    plan_id := jStr j "plan_id", settings_json := jStr j "settings_json",
    session_id := jStr j "session_id", timestamp := jStr j "timestamp",
    command := jStr j "command",
    overwrite := (match dictGet j "overwrite" with | some (.bool b) => b | _ => false),
    ssh_key := jStr j "ssh_key", ssh_port := jNat j "ssh_port" }

/-- Dispatch one action name to its handler. -/
def runActionNamed (env : Env) (action : String) (data : Req) :
    Except PyErr Json × List RemoteCall :=
  if action = "test_conn" then action_test_conn env data
  else if action = "check_file" then action_check_file env data
  else if action = "send_file" then action_send_file env data
  else if action = "init_queue" then action_init_queue env data
  else if action = "send_plan" then action_send_plan env data
  else if action = "poll_responses" then action_poll_responses env data
  else if action = "read_heartbeat" then action_read_heartbeat env data
  else if action = "write_settings" then action_write_settings env data
  else if action = "read_session" then action_read_session env data
  else if action = "reset_session" then action_reset_session env data
  else if action = "run_command" then action_run_command env data
  else if action = "interrupt" then action_interrupt env data
  else (.ok (errResp ("Unknown action: " ++ action)), [])

/-- Model rendering of `f"{action}"` for a non-string or absent action. -/
def pyFmtActionOpt : Option Json → String
  | some (.str s) => s
  | none => "None"
  | some j => String.mk (jsonDumpVal j)

/-- `handle_message`: route one decoded request to its handler. -/
def handle_message (env : Env) (msg : Json) : Except PyErr Json × List RemoteCall :=
  match dictGet msg "action" with
  | some (.str a) => runActionNamed env a (reqOfJson msg)
  | other => (.ok (errResp ("Unknown action: " ++ pyFmtActionOpt other)), [])

/-- Bytes the host manages to write for a response; an unencodable response
(`struct.error`) writes nothing (the error-path send is wrapped in a bare
`except: pass`). -/
def respBytes (r : Json) : List Nat := (send_message r).getD []

/-- The `main` read/handle/respond loop over an input byte stream, with
explicit recursion fuel.  Returns the bytes written to standard output and
`some code` when the process exits within the given fuel (`none` when it is
still waiting for more than `fuel` messages).  Any exception escaping a
handler or the frame decoder is caught at the top level, answered with an
`error` response, and terminates the process with exit code 1. -/
def mainLoop (env : Env) : Nat → List Nat → List Nat × Option Nat
  | 0, _ => ([], none)
  | fuel + 1, stream =>
    match read_message stream with
    | .exit0 => ([], some 0)
    | .exit1 => ([], some 1)
    | .perr e => (respBytes (errResp (pyErrStr e)), some 1)
    | .msg j rest =>
      match handle_message env j with
      | (.error e, _) => (respBytes (errResp (pyErrStr e)), some 1)
      | (.ok r, _) =>
        match send_message r with
        | none => (respBytes (errResp "struct.error"), some 1)
        | some bs =>
          let p := mainLoop env fuel rest
          (bs ++ p.1, p.2)

/-! ### Claims -/

/-- C1: every string containing one of the dangerous characters
`; & | backtick $ ( ) < > newline CR NUL` is rejected by both
`validate_path` and `validate_ssh_target`; every non-empty string without
them (and, for paths, without an escaped quote `\"` or `\'`) is accepted
and returned unmodified; `validate_ssh_target` additionally rejects any
string containing whitespace. -/
theorem C1_validators (s : String) :
    (s.data.any dangerous_path_char = true →
      (validate_path s).toOption = none ∧ (validate_ssh_target s).toOption = none)
  ∧ (s.data.isEmpty = false → s.data.any dangerous_path_char = false →
      hasEscapedQuote s.data = false → validate_path s = .ok s)
  ∧ (s.data.isEmpty = false → s.data.any dangerous_target_char = false →
      validate_ssh_target s = .ok s)
  ∧ (s.data.any pySpaceChar = true → (validate_ssh_target s).toOption = none) := by
  have hmono : s.data.any dangerous_path_char = true →
      s.data.any dangerous_target_char = true := by
    intro h
    rw [List.any_eq_true] at h ⊢
    obtain ⟨c, hc, hp⟩ := h
    exact ⟨c, hc, by simp [dangerous_target_char, hp]⟩
  have hspace : s.data.any pySpaceChar = true →
      s.data.any dangerous_target_char = true := by
    intro h
    rw [List.any_eq_true] at h ⊢
    obtain ⟨c, hc, hp⟩ := h
    exact ⟨c, hc, by simp [dangerous_target_char, hp]⟩
  have hne : ∀ p : Char → Bool, s.data.any p = true → s.data.isEmpty = false := by
    intro p h
    cases hd : s.data with
    | nil => rw [hd] at h; simp at h
    | cons a t => rfl
  refine ⟨fun h => ?_, fun h1 h2 h3 => ?_, fun h1 h2 => ?_, fun h => ?_⟩
  · refine ⟨?_, ?_⟩
    · rw [validate_path, if_neg (by simp [hne _ h]), if_pos h]
      rfl
    · rw [validate_ssh_target, if_neg (by simp [hne _ h]), if_pos (hmono h)]
      rfl
  · rw [validate_path, if_neg (by simp [h1]), if_neg (by simp [h2]), if_neg (by simp [h3])]
  · rw [validate_ssh_target, if_neg (by simp [h1]), if_neg (by simp [h2])]
  · rw [validate_ssh_target, if_neg (by simp [hne _ h]), if_pos (hspace h)]
    rfl

theorem C1_validators_witness :
    (validate_path (String.mk [';'])).toOption = none
  ∧ (validate_ssh_target (String.mk [';'])).toOption = none
  ∧ validate_path "a b" = .ok "a b"
  ∧ validate_ssh_target "user@host" = .ok "user@host"
  ∧ (validate_ssh_target "a b").toOption = none :=
  ⟨((C1_validators (String.mk [';'])).1 (by decide)).1,
   ((C1_validators (String.mk [';'])).1 (by decide)).2,
   (C1_validators "a b").2.1 (by decide) (by decide) (by decide),
   (C1_validators "user@host").2.2.1 (by decide) (by decide),
   (C1_validators "a b").2.2.2 (by decide)⟩

/-- C2 counterexample: `action_reset_session` interpolates a `session_id`
that does not match `^[A-Za-z0-9_-]+$` (here `bad;id`) into the remote
command without any pattern check and without an error response: the
handler issues the remote call (whose command contains the identifier
verbatim inside the shell-escaped history entry) and reports success. -/
theorem C2_counterexample :
    idFullMatch "bad;id" = false
  ∧ pyMatchId "bad;id" = false
  ∧ (action_reset_session ⟨fun _ => .completed 0 "" "", true⟩
      { ssh_target := some "host", remote_path := some "/tmp/p",
        session_id := some "bad;id", timestamp := some "2024" }).2
      = [RemoteCall.ssh (build_ssh_args "host" none none) "host"
          (resetSessionCmd "/tmp/p" (some "bad;id") (some "2024"))]
  ∧ hasSub ("bad;id").data (resetSessionCmd "/tmp/p" (some "bad;id") (some "2024")).data = true
  ∧ hstatus (action_reset_session ⟨fun _ => .completed 0 "" "", true⟩
      { ssh_target := some "host", remote_path := some "/tmp/p",
        session_id := some "bad;id", timestamp := some "2024" }) = some "success" :=
  ⟨by decide, by decide, rfl, by decide, rfl⟩

/-- C2 (amended): the plan identifiers of `send_plan` and `poll_responses`
are checked against `re.match(r'^[a-zA-Z0-9_-]+$', ·)` before any remote
path is built: a non-matching `plan_id` yields an error response with no
remote invocation, and any remote invocation implies the identifier
matched.  The `session_id` of `reset_session` is not pattern-checked (see
the counterexample): it is only JSON-encoded and single-quote-escaped into
the remote command. -/
theorem C2_amended (env : Env) (data : Req) :
    (∀ pid, data.plan_id = some pid → pyMatchId pid = false →
      hstatus (action_poll_responses env data) = some "error"
        ∧ (action_poll_responses env data).2 = [])
  ∧ (∀ pd ms s, data.plan_data = some pd → json_loads pd = some (.obj ms) →
      lookupLast "id" ms = some (.str s) → pyMatchId s = false →
      hstatus (action_send_plan env data) = some "error"
        ∧ (action_send_plan env data).2 = [])
  ∧ ((action_poll_responses env data).2 ≠ [] →
      ∃ pid, data.plan_id = some pid ∧ pyMatchId pid = true)
  ∧ ((action_send_plan env data).2 ≠ [] →
      ∃ pd ms s, data.plan_data = some pd ∧ json_loads pd = some (.obj ms) ∧
        lookupLast "id" ms = some (.str s) ∧ pyMatchId s = true) := by
  refine ⟨fun pid hp hm => ?_, fun pd ms s hpd hj hid hm => ?_, fun hne => ?_, fun hne => ?_⟩
  · simp only [action_poll_responses, hp, Option.getD_some]
    split
    · exact ⟨rfl, rfl⟩
    · split
      · exact ⟨rfl, rfl⟩
      · split
        · exact ⟨rfl, rfl⟩
        · rw [if_pos (by simp [hm])]
          exact ⟨rfl, rfl⟩
  · simp only [action_send_plan, hpd, Option.getD_some, hj, hid]
    split
    · exact ⟨rfl, rfl⟩
    · split
      · exact ⟨rfl, rfl⟩
      · split
        · exact ⟨rfl, rfl⟩
        · split
          · exact ⟨rfl, rfl⟩
          · rw [if_pos (by simp [hm])]
            exact ⟨rfl, rfl⟩
  · match hp : data.plan_id with
    | none =>
      exfalso
      apply hne
      simp only [action_poll_responses, hp]
      rw [if_pos (by simp [truthy])]
    | some pid =>
      refine ⟨pid, rfl, ?_⟩
      by_contra hm
      have hm' : pyMatchId pid = false := by
        revert hm
        cases pyMatchId pid <;> simp
      apply hne
      simp only [action_poll_responses, hp, Option.getD_some]
      split
      · rfl
      · split
        · rfl
        · split
          · rfl
          · rw [if_pos (by simp [hm'])]
  · match hpd : data.plan_data with
    | none =>
      exfalso
      apply hne
      simp only [action_send_plan, hpd]
      rw [if_pos (by simp [truthy])]
    | some pd =>
      refine ⟨pd, ?_⟩
      match hj : json_loads pd with
      | none =>
        exfalso
        apply hne
        simp only [action_send_plan, hpd, Option.getD_some, hj]
        split
        · rfl
        · split
          · rfl
          · split
            · rfl
            · rfl
      | some plan =>
        match plan with
        | .obj ms =>
          refine ⟨ms, ?_⟩
          match hid : lookupLast "id" ms with
          | none =>
            exfalso
            apply hne
            simp only [action_send_plan, hpd, Option.getD_some, hj, hid]
            split
            · rfl
            · split
              · rfl
              · split
                · rfl
                · rfl
          | some jv =>
            match jv with
            | .str s =>
              refine ⟨s, rfl, rfl, rfl, ?_⟩
              by_contra hm
              have hm' : pyMatchId s = false := by
                revert hm
                cases pyMatchId s <;> simp
              apply hne
              simp only [action_send_plan, hpd, Option.getD_some, hj, hid]
              split
              · rfl
              · split
                · rfl
                · split
                  · rfl
                  · split
                    · rfl
                    · rw [if_pos (by simp [hm'])]
            | .null =>
              exfalso
              apply hne
              simp only [action_send_plan, hpd, Option.getD_some, hj, hid]
              split
              · rfl
              · split
                · rfl
                · split
                  · rfl
                  · rw [if_pos (by simp [truthyJson])]
            | .bool b =>
              exfalso
              apply hne
              simp only [action_send_plan, hpd, Option.getD_some, hj, hid]
              split
              · rfl
              · split
                · rfl
                · split
                  · rfl
                  · split
                    · rfl
                    · rfl
            | .num i =>
              exfalso
              apply hne
              simp only [action_send_plan, hpd, Option.getD_some, hj, hid]
              split
              · rfl
              · split
                · rfl
                · split
                  · rfl
                  · split
                    · rfl
                    · rfl
            | .arr es =>
              exfalso
              apply hne
              simp only [action_send_plan, hpd, Option.getD_some, hj, hid]
              split
              · rfl
              · split
                · rfl
                · split
                  · rfl
                  · split
                    · rfl
                    · rfl
            | .obj ms2 =>
              exfalso
              apply hne
              simp only [action_send_plan, hpd, Option.getD_some, hj, hid]
              split
              · rfl
              · split
                · rfl
                · split
                  · rfl
                  · split
                    · rfl
                    · rfl
        | .null =>
          exfalso
          apply hne
          simp only [action_send_plan, hpd, Option.getD_some, hj]
          split
          · rfl
          · split
            · rfl
            · split
              · rfl
              · rfl
        | .bool b =>
          exfalso
          apply hne
          simp only [action_send_plan, hpd, Option.getD_some, hj]
          split
          · rfl
          · split
            · rfl
            · split
              · rfl
              · rfl
        | .num i =>
          exfalso
          apply hne
          simp only [action_send_plan, hpd, Option.getD_some, hj]
          split
          · rfl
          · split
            · rfl
            · split
              · rfl
              · rfl
        | .str s2 =>
          exfalso
          apply hne
          simp only [action_send_plan, hpd, Option.getD_some, hj]
          split
          · rfl
          · split
            · rfl
            · split
              · rfl
              · rfl
        | .arr es =>
          exfalso
          apply hne
          simp only [action_send_plan, hpd, Option.getD_some, hj]
          split
          · rfl
          · split
            · rfl
            · split
              · rfl
              · rfl

theorem C2_amended_witness :
    hstatus (action_poll_responses ⟨fun _ => .completed 0 "" "", true⟩
      { ssh_target := some "host", remote_path := some "/tmp/p",
        plan_id := some "bad;id" }) = some "error"
  ∧ (action_poll_responses ⟨fun _ => .completed 0 "" "", true⟩
      { ssh_target := some "host", remote_path := some "/tmp/p",
        plan_id := some "bad;id" }).2 = []
  ∧ hstatus (action_send_plan ⟨fun _ => .completed 0 "" "", true⟩
      { ssh_target := some "host", remote_path := some "/tmp/p",
        plan_data := some "\x7b\"id\": \"bad;id\"\x7d" }) = some "error" := by
  refine ⟨?_, ?_, ?_⟩
  · exact ((C2_amended ⟨fun _ => .completed 0 "" "", true⟩ _).1 "bad;id" rfl (by decide)).1
  · exact ((C2_amended ⟨fun _ => .completed 0 "" "", true⟩ _).1 "bad;id" rfl (by decide)).2
  · exact ((C2_amended ⟨fun _ => .completed 0 "" "", true⟩ _).2.1
      "\x7b\"id\": \"bad;id\"\x7d" [("id", .str "bad;id")] "bad;id" rfl (by rfl) (by rfl)
      (by decide)).1

/-- C3: a `run_command` request whose command, after stripping a leading
`cd dir &&` prefix, does not start with an allow-listed program name
(`plandrop-history`, or `python3 ` together with `history.py`) is answered
with a `status = error` response and no remote invocation at all. -/
theorem C3_run_command_allowlist (env : Env) (data : Req)
    (hm : allowed_run_command (data.command.getD "") = false) :
    hstatus (action_run_command env data) = some "error"
      ∧ (action_run_command env data).2 = [] := by
  simp only [action_run_command]
  split
  · exact ⟨rfl, rfl⟩
  · split
    · exact ⟨rfl, rfl⟩
    · split
      · exact ⟨rfl, rfl⟩
      · rw [if_pos (by simp [hm])]
        exact ⟨rfl, rfl⟩

theorem C3_run_command_allowlist_witness :
    allowed_run_command "rm -rf /" = false
  ∧ hstatus (action_run_command ⟨fun _ => .completed 0 "" "", true⟩
      { ssh_target := some "host", remote_path := some "/tmp/p",
        command := some "rm -rf /" }) = some "error"
  ∧ (action_run_command ⟨fun _ => .completed 0 "" "", true⟩
      { ssh_target := some "host", remote_path := some "/tmp/p",
        command := some "rm -rf /" }).2 = [] :=
  ⟨by decide,
   (C3_run_command_allowlist ⟨fun _ => .completed 0 "" "", true⟩
      { ssh_target := some "host", remote_path := some "/tmp/p",
        command := some "rm -rf /" } (by decide)).1,
   (C3_run_command_allowlist ⟨fun _ => .completed 0 "" "", true⟩
      { ssh_target := some "host", remote_path := some "/tmp/p",
        command := some "rm -rf /" } (by decide)).2⟩

/-- C4 counterexample: a complete frame whose one-byte body `x` is not
valid JSON makes `read_message` raise `json.JSONDecodeError`, which
propagates out of the framer; the main loop answers with an error response
and then terminates the process with exit code 1, so a malformed JSON body
does terminate the process even though the framing itself is intact. -/
theorem C4_counterexample :
    read_message (pack32le 1 ++ [120]) = .perr .jsonDecodeError
  ∧ (mainLoop ⟨fun _ => .completed 0 "" "", true⟩ 2 (pack32le 1 ++ [120])).2 = some 1 :=
  ⟨rfl, rfl⟩

/-- C4 (amended): handler-level validation failures are recovered locally:
for every action name, a request whose `ssh_target` fails
`validate_ssh_target` is answered with a `status = error` response and no
remote invocation, and (for every action other than `test_conn`, which has
no path) a request whose `remote_path` fails `validate_path` likewise; but
a frame whose body fails JSON (or UTF-8) decoding raises inside
`read_message`, and the top level answers with an error response and
terminates the process with exit code 1 — not only framing-header
corruption terminates the process. -/
theorem C4_validation_errors :
    (∀ (env : Env) (a : String) (data : Req) (t : String),
      data.ssh_target = some t → (validate_ssh_target t).toOption = none →
      hstatus (runActionNamed env a data) = some "error"
        ∧ (runActionNamed env a data).2 = [])
  ∧ (∀ (env : Env) (a : String) (data : Req) (p : String),
      a ≠ "test_conn" → data.remote_path = some p →
      (validate_path p).toOption = none →
      hstatus (runActionNamed env a data) = some "error"
        ∧ (runActionNamed env a data).2 = [])
  ∧ (∀ (env : Env) (fuel : Nat) (st : List Nat) (e : PyErr),
      read_message st = .perr e →
      mainLoop env (fuel + 1) st = (respBytes (errResp (pyErrStr e)), some 1)) := by
  refine ⟨fun env a data t ht hv => ?_, fun env a data p htc hp hvp => ?_,
    fun env fuel st e h => ?_⟩
  · cases he : validate_ssh_target t with
    | ok u =>
      rw [he] at hv
      simp [Except.toOption] at hv
    | error e =>
      by_cases h1 : a = "test_conn"
      · unfold runActionNamed
        rw [if_pos h1]
        simp only [action_test_conn, ht, Option.getD_some, he]
        split
        · exact ⟨rfl, rfl⟩
        · exact ⟨rfl, rfl⟩
      by_cases h2 : a = "check_file"
      · unfold runActionNamed
        rw [if_neg h1, if_pos h2]
        simp only [action_check_file, ht, Option.getD_some, he]
        split
        · exact ⟨rfl, rfl⟩
        · exact ⟨rfl, rfl⟩
      by_cases h3 : a = "send_file"
      · unfold runActionNamed
        rw [if_neg h1, if_neg h2, if_pos h3]
        simp only [action_send_file, ht, Option.getD_some, he]
        split
        · exact ⟨rfl, rfl⟩
        · exact ⟨rfl, rfl⟩
      by_cases h4 : a = "init_queue"
      · unfold runActionNamed
        rw [if_neg h1, if_neg h2, if_neg h3, if_pos h4]
        simp only [action_init_queue, ht, Option.getD_some, he]
        split
        · exact ⟨rfl, rfl⟩
        · exact ⟨rfl, rfl⟩
      by_cases h5 : a = "send_plan"
      · unfold runActionNamed
        rw [if_neg h1, if_neg h2, if_neg h3, if_neg h4, if_pos h5]
        simp only [action_send_plan, ht, Option.getD_some, he]
        split
        · exact ⟨rfl, rfl⟩
        · exact ⟨rfl, rfl⟩
      by_cases h6 : a = "poll_responses"
      · unfold runActionNamed
        rw [if_neg h1, if_neg h2, if_neg h3, if_neg h4, if_neg h5, if_pos h6]
        simp only [action_poll_responses, ht, Option.getD_some, he]
        split
        · exact ⟨rfl, rfl⟩
        · exact ⟨rfl, rfl⟩
      by_cases h7 : a = "read_heartbeat"
      · unfold runActionNamed
        rw [if_neg h1, if_neg h2, if_neg h3, if_neg h4, if_neg h5, if_neg h6, if_pos h7]
        simp only [action_read_heartbeat, ht, Option.getD_some, he]
        split
        · exact ⟨rfl, rfl⟩
        · exact ⟨rfl, rfl⟩
      by_cases h8 : a = "write_settings"
      · unfold runActionNamed
        rw [if_neg h1, if_neg h2, if_neg h3, if_neg h4, if_neg h5, if_neg h6, if_neg h7,
          if_pos h8]
        simp only [action_write_settings, ht, Option.getD_some, he]
        split
        · exact ⟨rfl, rfl⟩
        · exact ⟨rfl, rfl⟩
      by_cases h9 : a = "read_session"
      · unfold runActionNamed
        rw [if_neg h1, if_neg h2, if_neg h3, if_neg h4, if_neg h5, if_neg h6, if_neg h7,
          if_neg h8, if_pos h9]
        simp only [action_read_session, ht, Option.getD_some, he]
        split
        · exact ⟨rfl, rfl⟩
        · exact ⟨rfl, rfl⟩
      by_cases h10 : a = "reset_session"
      · unfold runActionNamed
        rw [if_neg h1, if_neg h2, if_neg h3, if_neg h4, if_neg h5, if_neg h6, if_neg h7,
          if_neg h8, if_neg h9, if_pos h10]
        simp only [action_reset_session, ht, Option.getD_some, he]
        split
        · exact ⟨rfl, rfl⟩
        · exact ⟨rfl, rfl⟩
      by_cases h11 : a = "run_command"
      · unfold runActionNamed
        rw [if_neg h1, if_neg h2, if_neg h3, if_neg h4, if_neg h5, if_neg h6, if_neg h7,
          if_neg h8, if_neg h9, if_neg h10, if_pos h11]
        simp only [action_run_command, ht, Option.getD_some, he]
        split
        · exact ⟨rfl, rfl⟩
        · exact ⟨rfl, rfl⟩
      by_cases h12 : a = "interrupt"
      · unfold runActionNamed
        rw [if_neg h1, if_neg h2, if_neg h3, if_neg h4, if_neg h5, if_neg h6, if_neg h7,
          if_neg h8, if_neg h9, if_neg h10, if_neg h11, if_pos h12]
        simp only [action_interrupt, ht, Option.getD_some, he]
        split
        · exact ⟨rfl, rfl⟩
        · exact ⟨rfl, rfl⟩
      unfold runActionNamed
      rw [if_neg h1, if_neg h2, if_neg h3, if_neg h4, if_neg h5, if_neg h6, if_neg h7,
        if_neg h8, if_neg h9, if_neg h10, if_neg h11, if_neg h12]
      exact ⟨rfl, rfl⟩
  · cases hpe : validate_path p with
    | ok v =>
      rw [hpe] at hvp
      simp [Except.toOption] at hvp
    | error e2 =>
      by_cases h1 : a = "test_conn"
      · exact absurd h1 htc
      by_cases h2 : a = "check_file"
      · unfold runActionNamed
        rw [if_neg h1, if_pos h2]
        simp only [action_check_file, hp, Option.getD_some, hpe]
        split
        · exact ⟨rfl, rfl⟩
        · split
          · exact ⟨rfl, rfl⟩
          · exact ⟨rfl, rfl⟩
      by_cases h3 : a = "send_file"
      · unfold runActionNamed
        rw [if_neg h1, if_neg h2, if_pos h3]
        simp only [action_send_file, hp, Option.getD_some, hpe]
        split
        · exact ⟨rfl, rfl⟩
        · split
          · exact ⟨rfl, rfl⟩
          · exact ⟨rfl, rfl⟩
      by_cases h4 : a = "init_queue"
      · unfold runActionNamed
        rw [if_neg h1, if_neg h2, if_neg h3, if_pos h4]
        simp only [action_init_queue, hp, Option.getD_some, hpe]
        split
        · exact ⟨rfl, rfl⟩
        · split
          · exact ⟨rfl, rfl⟩
          · exact ⟨rfl, rfl⟩
      by_cases h5 : a = "send_plan"
      · unfold runActionNamed
        rw [if_neg h1, if_neg h2, if_neg h3, if_neg h4, if_pos h5]
        simp only [action_send_plan, hp, Option.getD_some, hpe]
        split
        · exact ⟨rfl, rfl⟩
        · split
          · exact ⟨rfl, rfl⟩
          · exact ⟨rfl, rfl⟩
      by_cases h6 : a = "poll_responses"
      · unfold runActionNamed
        rw [if_neg h1, if_neg h2, if_neg h3, if_neg h4, if_neg h5, if_pos h6]
        simp only [action_poll_responses, hp, Option.getD_some, hpe]
        split
        · exact ⟨rfl, rfl⟩
        · split
          · exact ⟨rfl, rfl⟩
          · exact ⟨rfl, rfl⟩
      by_cases h7 : a = "read_heartbeat"
      · unfold runActionNamed
        rw [if_neg h1, if_neg h2, if_neg h3, if_neg h4, if_neg h5, if_neg h6, if_pos h7]
        simp only [action_read_heartbeat, hp, Option.getD_some, hpe]
        split
        · exact ⟨rfl, rfl⟩
        · split
          · exact ⟨rfl, rfl⟩
          · exact ⟨rfl, rfl⟩
      by_cases h8 : a = "write_settings"
      · unfold runActionNamed
        rw [if_neg h1, if_neg h2, if_neg h3, if_neg h4, if_neg h5, if_neg h6, if_neg h7,
          if_pos h8]
        simp only [action_write_settings, hp, Option.getD_some, hpe]
        split
        · exact ⟨rfl, rfl⟩
        · split
          · exact ⟨rfl, rfl⟩
          · exact ⟨rfl, rfl⟩
      by_cases h9 : a = "read_session"
      · unfold runActionNamed
        rw [if_neg h1, if_neg h2, if_neg h3, if_neg h4, if_neg h5, if_neg h6, if_neg h7,
          if_neg h8, if_pos h9]
        simp only [action_read_session, hp, Option.getD_some, hpe]
        split
        · exact ⟨rfl, rfl⟩
        · split
          · exact ⟨rfl, rfl⟩
          · exact ⟨rfl, rfl⟩
      by_cases h10 : a = "reset_session"
      · unfold runActionNamed
        rw [if_neg h1, if_neg h2, if_neg h3, if_neg h4, if_neg h5, if_neg h6, if_neg h7,
          if_neg h8, if_neg h9, if_pos h10]
        simp only [action_reset_session, hp, Option.getD_some, hpe]
        split
        · exact ⟨rfl, rfl⟩
        · split
          · exact ⟨rfl, rfl⟩
          · exact ⟨rfl, rfl⟩
      by_cases h11 : a = "run_command"
      · unfold runActionNamed
        rw [if_neg h1, if_neg h2, if_neg h3, if_neg h4, if_neg h5, if_neg h6, if_neg h7,
          if_neg h8, if_neg h9, if_neg h10, if_pos h11]
        simp only [action_run_command, hp, Option.getD_some, hpe]
        split
        · exact ⟨rfl, rfl⟩
        · split
          · exact ⟨rfl, rfl⟩
          · exact ⟨rfl, rfl⟩
      by_cases h12 : a = "interrupt"
      · unfold runActionNamed
        rw [if_neg h1, if_neg h2, if_neg h3, if_neg h4, if_neg h5, if_neg h6, if_neg h7,
          if_neg h8, if_neg h9, if_neg h10, if_neg h11, if_pos h12]
        simp only [action_interrupt, hp, Option.getD_some, hpe]
        split
        · exact ⟨rfl, rfl⟩
        · split
          · exact ⟨rfl, rfl⟩
          · exact ⟨rfl, rfl⟩
      unfold runActionNamed
      rw [if_neg h1, if_neg h2, if_neg h3, if_neg h4, if_neg h5, if_neg h6, if_neg h7,
        if_neg h8, if_neg h9, if_neg h10, if_neg h11, if_neg h12]
      exact ⟨rfl, rfl⟩
  · simp only [mainLoop, h]

theorem C4_validation_errors_witness :
    (hstatus (runActionNamed ⟨fun _ => .completed 0 "" "", true⟩ "send_plan"
        { ssh_target := some "h;x", remote_path := some "/tmp/p" }) = some "error"
      ∧ (runActionNamed ⟨fun _ => .completed 0 "" "", true⟩ "send_plan"
        { ssh_target := some "h;x", remote_path := some "/tmp/p" }).2 = [])
  ∧ (hstatus (runActionNamed ⟨fun _ => .completed 0 "" "", true⟩ "check_file"
        { ssh_target := some "host", remote_path := some "/tmp/p;q" }) = some "error"
      ∧ (runActionNamed ⟨fun _ => .completed 0 "" "", true⟩ "check_file"
        { ssh_target := some "host", remote_path := some "/tmp/p;q" }).2 = [])
  ∧ mainLoop ⟨fun _ => .completed 0 "" "", true⟩ 1 (pack32le 1 ++ [120])
      = (respBytes (errResp (pyErrStr .jsonDecodeError)), some 1) :=
  ⟨C4_validation_errors.1 ⟨fun _ => .completed 0 "" "", true⟩ "send_plan"
      { ssh_target := some "h;x", remote_path := some "/tmp/p" } "h;x" rfl (by decide),
   C4_validation_errors.2.1 ⟨fun _ => .completed 0 "" "", true⟩ "check_file"
      { ssh_target := some "host", remote_path := some "/tmp/p;q" } "/tmp/p;q"
      (by decide) rfl (by decide),
   C4_validation_errors.2.2 ⟨fun _ => .completed 0 "" "", true⟩ 0
      (pack32le 1 ++ [120]) .jsonDecodeError (by rfl)⟩

/-- C5: whenever `send_message` succeeds in writing a message, the bytes
written are exactly a 4-byte unsigned little-endian length header followed
by that many bytes of UTF-8-encoded JSON; the header decodes to the body
length and re-encoding the decoded length reproduces the header
byte-for-byte; and `read_message` on those bytes (followed by anything)
returns the original object and leaves the remainder untouched. -/
theorem C5_framing (m : Json) (bs extra : List Nat) (h : send_message m = some bs) :
    bs = pack32le (utf8Encode (jsonDumps m)).length ++ utf8Encode (jsonDumps m)
  ∧ unpack32le (bs.take 4) = (utf8Encode (jsonDumps m)).length
  ∧ bs.take 4 = pack32le (unpack32le (bs.take 4))
  ∧ read_message (bs ++ extra) = .msg m extra := by
  unfold send_message at h
  by_cases hlen : (utf8Encode (jsonDumps m)).length < 2 ^ 32
  · rw [if_pos hlen] at h
    obtain rfl := (Option.some_inj.mp h).symm
    have h4 : (pack32le (utf8Encode (jsonDumps m)).length).length = 4 := rfl
    have htake : ∀ l2 : List Nat,
        (pack32le (utf8Encode (jsonDumps m)).length ++ l2).take 4
          = pack32le (utf8Encode (jsonDumps m)).length := by
      intro l2
      rw [← h4]
      exact List.take_left _ l2
    have hdrop : ∀ l2 : List Nat,
        (pack32le (utf8Encode (jsonDumps m)).length ++ l2).drop 4 = l2 := by
      intro l2
      rw [← h4]
      exact List.drop_left _ l2
    refine ⟨rfl, ?_, ?_, ?_⟩
    · rw [htake, unpack32le_pack32le _ hlen]
    · rw [htake, unpack32le_pack32le _ hlen]
    · rw [List.append_assoc]
      simp only [read_message]
      rw [htake, hdrop, h4]
      rw [if_neg (by decide)]
      rw [if_neg (by decide)]
      rw [unpack32le_pack32le _ hlen]
      rw [List.take_left, List.drop_left]
      simp only [utf8DecodeL_encode]
      have hs : String.mk (jsonDumps m).data = jsonDumps m := rfl
      rw [hs, json_loads_dumps]
  · rw [if_neg hlen] at h
    exact Option.noConfusion h

theorem C5_framing_witness :
    send_message (Json.obj [("status", Json.str "ok")])
      = some (pack32le 16 ++ utf8Encode "\x7b\"status\": \"ok\"\x7d")
  ∧ read_message ((pack32le 16 ++ utf8Encode "\x7b\"status\": \"ok\"\x7d") ++ [7])
      = .msg (Json.obj [("status", Json.str "ok")]) [7] :=
  ⟨rfl,
   (C5_framing (Json.obj [("status", Json.str "ok")])
      (pack32le 16 ++ utf8Encode "\x7b\"status\": \"ok\"\x7d") [7] rfl).2.2.2⟩

/-- C6: an empty initial read of the 4-byte length header makes the
process exit cleanly with code 0, while a nonzero but incomplete header
(1 to 3 bytes) makes it exit fatally with code 1. -/
theorem C6_header_exits (env : Env) (fuel : Nat) (st : List Nat) :
    (st = [] → read_message st = .exit0 ∧ mainLoop env (fuel + 1) st = ([], some 0))
  ∧ (st.length = 1 ∨ st.length = 2 ∨ st.length = 3 →
      read_message st = .exit1 ∧ mainLoop env (fuel + 1) st = ([], some 1)) := by
  constructor
  · rintro rfl
    have h0 : read_message [] = .exit0 := rfl
    refine ⟨h0, ?_⟩
    simp only [mainLoop, h0]
  · intro h
    have hlt : (st.take 4).length = st.length := by
      rw [List.length_take]
      omega
    have h1 : read_message st = .exit1 := by
      simp only [read_message, hlt]
      rw [if_neg (by omega), if_pos (by omega)]
    refine ⟨h1, ?_⟩
    simp only [mainLoop, h1]

theorem C6_header_exits_witness :
    read_message ([] : List Nat) = .exit0
  ∧ mainLoop ⟨fun _ => .completed 0 "" "", true⟩ 1 [] = ([], some 0)
  ∧ read_message [5] = .exit1
  ∧ mainLoop ⟨fun _ => .completed 0 "" "", true⟩ 1 [5] = ([], some 1) :=
  ⟨((C6_header_exits ⟨fun _ => .completed 0 "" "", true⟩ 0 []).1 rfl).1,
   ((C6_header_exits ⟨fun _ => .completed 0 "" "", true⟩ 0 []).1 rfl).2,
   ((C6_header_exits ⟨fun _ => .completed 0 "" "", true⟩ 0 [5]).2 (Or.inl rfl)).1,
   ((C6_header_exits ⟨fun _ => .completed 0 "" "", true⟩ 0 [5]).2 (Or.inl rfl)).2⟩

theorem ne_true_eq_false {b : Bool} (h : ¬ b = true) : b = false := by
  revert h
  cases b <;> simp

/-- C7 counterexample: with a valid target and path and an all-success
transport, the plan payload whose `id` is the string `a` followed by a
newline is accepted by `send_plan` (Python `re.match` with a `$` anchor
also matches just before one trailing newline), although that id does not
fully match the pattern; so success does not imply a full match. -/
theorem C7_counterexample :
    idFullMatch "a\n" = false
  ∧ pyMatchId "a\n" = true
  ∧ hstatus (action_send_plan ⟨fun _ => .completed 0 "" "", true⟩
      { ssh_target := some "host", remote_path := some "/tmp/p",
        plan_data := some "\x7b\"id\": \"a\\n\"\x7d" }) = some "success" :=
  ⟨by decide, by decide, rfl⟩

/-- C7 (amended): with a valid target and path supplied and a transport
whose invocations all complete with exit code 0, `send_plan` answers
`status = success` exactly when the plan data parses as a JSON object
whose `id` member is a non-empty string accepted by
`re.match(r'^[a-zA-Z0-9_-]+$', id)` — which also accepts one trailing
newline, so this is weaker than a full match; on success the response
carries that id and the single remote invocation copies the plan body to
`plans/<id>.json` under the queue directory. -/
theorem C7_send_plan (env : Env) (data : Req) (tgt rp pd : String)
    (henv : ∀ c, env.run c = .completed 0 "" "")
    (ht : data.ssh_target = some tgt) (hvt : validate_ssh_target tgt = .ok tgt)
    (hp : data.remote_path = some rp) (hvp : validate_path rp = .ok rp)
    (hpd : data.plan_data = some pd) (htp : truthy data.plan_data = true) :
    (hstatus (action_send_plan env data) = some "success" ↔
      ∃ ms s, json_loads pd = some (.obj ms) ∧ lookupLast "id" ms = some (.str s)
        ∧ s.data.isEmpty = false ∧ pyMatchId s = true)
  ∧ (∀ ms s, json_loads pd = some (.obj ms) → lookupLast "id" ms = some (.str s) →
      s.data.isEmpty = false → pyMatchId s = true →
      action_send_plan env data =
        (.ok (.obj [("status", .str "success"), ("id", .str s)]),
         [RemoteCall.scp (build_scp_args tgt data.ssh_key data.ssh_port) (.temp pd)
           (tgt ++ ":" ++ (rp ++ "/.plandrop/plans/" ++ s ++ ".json"))])) := by
  have httgt : tgt.data.isEmpty = false := by
    cases he : tgt.data.isEmpty
    · rfl
    · unfold validate_ssh_target at hvt
      rw [if_pos he] at hvt
      exact Except.noConfusion hvt
  have hrpne : rp.data.isEmpty = false := by
    cases he : rp.data.isEmpty
    · rfl
    · unfold validate_path at hvp
      rw [if_pos he] at hvp
      exact Except.noConfusion hvp
  rw [hpd] at htp
  have hpdne : pd.data.isEmpty = false := by
    have h2 : (!pd.data.isEmpty) = true := htp
    cases hd : pd.data.isEmpty
    · rfl
    · rw [hd] at h2
      exact absurd h2 (by decide)
  have hmiss : (!truthy (some tgt) || !truthy (some rp) || !truthy (some pd)) = false := by
    simp [truthy, httgt, hrpne, hpdne]
  have hcomp : ∀ ms s, json_loads pd = some (.obj ms) →
      lookupLast "id" ms = some (.str s) →
      s.data.isEmpty = false → pyMatchId s = true →
      action_send_plan env data =
        (.ok (.obj [("status", .str "success"), ("id", .str s)]),
         [RemoteCall.scp (build_scp_args tgt data.ssh_key data.ssh_port) (.temp pd)
           (tgt ++ ":" ++ (rp ++ "/.plandrop/plans/" ++ s ++ ".json"))]) := by
    intro ms s hj hid hse hm
    simp only [action_send_plan, ht, hp, hpd, Option.getD_some, hvt, hvp, hj, hid]
    rw [if_neg (by simp [hmiss])]
    rw [if_neg (by simp [truthyJson, hse])]
    rw [if_neg (by simp [hm])]
    simp only [henv]
    rw [if_pos trivial]
  refine ⟨⟨fun hsucc => ?_, fun hex => ?_⟩, hcomp⟩
  · match hj : json_loads pd with
    | none =>
      simp only [action_send_plan, ht, hp, hpd, Option.getD_some, hvt, hvp, hj] at hsucc
      rw [if_neg (by simp [hmiss])] at hsucc
      exact absurd hsucc (by decide)
    | some plan =>
      match plan with
      | .obj ms =>
        match hid : lookupLast "id" ms with
        | none =>
          simp only [action_send_plan, ht, hp, hpd, Option.getD_some, hvt, hvp, hj,
            hid] at hsucc
          rw [if_neg (by simp [hmiss])] at hsucc
          exact absurd hsucc (by decide)
        | some jv =>
          match jv with
          | .str s =>
            by_cases htr : truthyJson (Json.str s) = true
            · by_cases hpm : pyMatchId s = true
              · have hse : s.data.isEmpty = false := by
                  have h2 : (!s.data.isEmpty) = true := htr
                  cases hd : s.data.isEmpty
                  · rfl
                  · rw [hd] at h2
                    exact absurd h2 (by decide)
                exact ⟨ms, s, rfl, hid, hse, hpm⟩
              · have hpm' : pyMatchId s = false := ne_true_eq_false hpm
                simp only [action_send_plan, ht, hp, hpd, Option.getD_some, hvt, hvp, hj,
                  hid] at hsucc
                rw [if_neg (by simp [hmiss]), if_neg (by simp [htr]),
                  if_pos (by simp [hpm'])] at hsucc
                exact absurd hsucc (by decide)
            · have htr' : truthyJson (Json.str s) = false := ne_true_eq_false htr
              simp only [action_send_plan, ht, hp, hpd, Option.getD_some, hvt, hvp, hj,
                hid] at hsucc
              rw [if_neg (by simp [hmiss]), if_pos (by simp [htr'])] at hsucc
              exact absurd hsucc (by decide)
          | .null =>
            by_cases hb : truthyJson Json.null = true
            · simp only [action_send_plan, ht, hp, hpd, Option.getD_some, hvt, hvp, hj,
                hid] at hsucc
              rw [if_neg (by simp [hmiss]), if_neg (by simp [hb])] at hsucc
              exact absurd hsucc (by decide)
            · have hb' := ne_true_eq_false hb
              simp only [action_send_plan, ht, hp, hpd, Option.getD_some, hvt, hvp, hj,
                hid] at hsucc
              rw [if_neg (by simp [hmiss]), if_pos (by simp [hb'])] at hsucc
              exact absurd hsucc (by decide)
          | .bool b =>
            by_cases hb : truthyJson (Json.bool b) = true
            · simp only [action_send_plan, ht, hp, hpd, Option.getD_some, hvt, hvp, hj,
                hid] at hsucc
              rw [if_neg (by simp [hmiss]), if_neg (by simp [hb])] at hsucc
              exact absurd hsucc (by decide)
            · have hb' := ne_true_eq_false hb
              simp only [action_send_plan, ht, hp, hpd, Option.getD_some, hvt, hvp, hj,
                hid] at hsucc
              rw [if_neg (by simp [hmiss]), if_pos (by simp [hb'])] at hsucc
              exact absurd hsucc (by decide)
          | .num i =>
            by_cases hb : truthyJson (Json.num i) = true
            · simp only [action_send_plan, ht, hp, hpd, Option.getD_some, hvt, hvp, hj,
                hid] at hsucc
              rw [if_neg (by simp [hmiss]), if_neg (by simp [hb])] at hsucc
              exact absurd hsucc (by decide)
            · have hb' := ne_true_eq_false hb
              simp only [action_send_plan, ht, hp, hpd, Option.getD_some, hvt, hvp, hj,
                hid] at hsucc
              rw [if_neg (by simp [hmiss]), if_pos (by simp [hb'])] at hsucc
              exact absurd hsucc (by decide)
          | .arr es =>
            by_cases hb : truthyJson (Json.arr es) = true
            · simp only [action_send_plan, ht, hp, hpd, Option.getD_some, hvt, hvp, hj,
                hid] at hsucc
              rw [if_neg (by simp [hmiss]), if_neg (by simp [hb])] at hsucc
              exact absurd hsucc (by decide)
            · have hb' := ne_true_eq_false hb
              simp only [action_send_plan, ht, hp, hpd, Option.getD_some, hvt, hvp, hj,
                hid] at hsucc
              rw [if_neg (by simp [hmiss]), if_pos (by simp [hb'])] at hsucc
              exact absurd hsucc (by decide)
          | .obj ms2 =>
            by_cases hb : truthyJson (Json.obj ms2) = true
            · simp only [action_send_plan, ht, hp, hpd, Option.getD_some, hvt, hvp, hj,
                hid] at hsucc
              rw [if_neg (by simp [hmiss]), if_neg (by simp [hb])] at hsucc
              exact absurd hsucc (by decide)
            · have hb' := ne_true_eq_false hb
              simp only [action_send_plan, ht, hp, hpd, Option.getD_some, hvt, hvp, hj,
                hid] at hsucc
              rw [if_neg (by simp [hmiss]), if_pos (by simp [hb'])] at hsucc
              exact absurd hsucc (by decide)
      | .null =>
        simp only [action_send_plan, ht, hp, hpd, Option.getD_some, hvt, hvp, hj] at hsucc
        rw [if_neg (by simp [hmiss])] at hsucc
        exact absurd hsucc (by decide)
      | .bool b =>
        simp only [action_send_plan, ht, hp, hpd, Option.getD_some, hvt, hvp, hj] at hsucc
        rw [if_neg (by simp [hmiss])] at hsucc
        exact absurd hsucc (by decide)
      | .num i =>
        simp only [action_send_plan, ht, hp, hpd, Option.getD_some, hvt, hvp, hj] at hsucc
        rw [if_neg (by simp [hmiss])] at hsucc
        exact absurd hsucc (by decide)
      | .str s2 =>
        simp only [action_send_plan, ht, hp, hpd, Option.getD_some, hvt, hvp, hj] at hsucc
        rw [if_neg (by simp [hmiss])] at hsucc
        exact absurd hsucc (by decide)
      | .arr es =>
        simp only [action_send_plan, ht, hp, hpd, Option.getD_some, hvt, hvp, hj] at hsucc
        rw [if_neg (by simp [hmiss])] at hsucc
        exact absurd hsucc (by decide)
  · obtain ⟨ms, s, hj, hid, hse, hpm⟩ := hex
    rw [hcomp ms s hj hid hse hpm]
    rfl

theorem C7_send_plan_witness :
    hstatus (action_send_plan ⟨fun _ => .completed 0 "" "", true⟩
      { ssh_target := some "host", remote_path := some "/tmp/p",
        plan_data := some "\x7b\"id\": \"a\\n\"\x7d" }) = some "success" :=
  (C7_send_plan ⟨fun _ => .completed 0 "" "", true⟩
      { ssh_target := some "host", remote_path := some "/tmp/p",
        plan_data := some "\x7b\"id\": \"a\\n\"\x7d" }
      "host" "/tmp/p" "\x7b\"id\": \"a\\n\"\x7d"
      (fun _ => rfl) rfl (by rfl) rfl (by rfl) rfl (by decide)).1.mpr
    ⟨[("id", Json.str "a\n")], "a\n", by rfl, by rfl, by decide, by decide⟩

/-- C8: with valid inputs, `read_heartbeat` and `read_session` report
`ok` with the stripped file contents when the remote `cat` produces
non-blank output, and the liveness-specific negative status
(`not_running` / `empty`) whenever the completed invocation produces
blank output — regardless of the exit code, so an absent file (where
`cat` fails with empty stdout) is never an error; the `error` status
occurs exactly when the transport invocation times out or the ssh binary
is missing. -/
theorem C8_flat_file_reads (env : Env) (data : Req) (tgt rp : String)
    (ht : data.ssh_target = some tgt) (hvt : validate_ssh_target tgt = .ok tgt)
    (hp : data.remote_path = some rp) (hvp : validate_path rp = .ok rp) :
    (∀ (rc : Int) (out err : String),
      env.run (RemoteCall.ssh (build_ssh_args tgt data.ssh_key data.ssh_port) tgt
          ("cat \"" ++ (rp ++ "/.plandrop/heartbeat") ++ "\" 2>/dev/null"))
        = .completed rc out err →
      action_read_heartbeat env data =
        (if !(pyStrip out).data.isEmpty then
          (.ok (.obj [("status", .str "ok"), ("timestamp", .str (pyStrip out))]),
           [RemoteCall.ssh (build_ssh_args tgt data.ssh_key data.ssh_port) tgt
             ("cat \"" ++ (rp ++ "/.plandrop/heartbeat") ++ "\" 2>/dev/null")])
        else
          (.ok (.obj [("status", .str "not_running")]),
           [RemoteCall.ssh (build_ssh_args tgt data.ssh_key data.ssh_port) tgt
             ("cat \"" ++ (rp ++ "/.plandrop/heartbeat") ++ "\" 2>/dev/null")])))
  ∧ (hstatus (action_read_heartbeat env data) = some "error" ↔
      (env.run (RemoteCall.ssh (build_ssh_args tgt data.ssh_key data.ssh_port) tgt
          ("cat \"" ++ (rp ++ "/.plandrop/heartbeat") ++ "\" 2>/dev/null")) = .timedOut
        ∨ env.run (RemoteCall.ssh (build_ssh_args tgt data.ssh_key data.ssh_port) tgt
          ("cat \"" ++ (rp ++ "/.plandrop/heartbeat") ++ "\" 2>/dev/null")) = .oserr))
  ∧ (∀ (rc : Int) (out err : String),
      env.run (RemoteCall.ssh (build_ssh_args tgt data.ssh_key data.ssh_port) tgt
          ("cat \"" ++ (rp ++ "/.plandrop/session_id") ++ "\" 2>/dev/null"))
        = .completed rc out err →
      action_read_session env data =
        (if !(pyStrip out).data.isEmpty then
          (.ok (.obj [("status", .str "ok"), ("session_id", .str (pyStrip out))]),
           [RemoteCall.ssh (build_ssh_args tgt data.ssh_key data.ssh_port) tgt
             ("cat \"" ++ (rp ++ "/.plandrop/session_id") ++ "\" 2>/dev/null")])
        else
          (.ok (.obj [("status", .str "empty")]),
           [RemoteCall.ssh (build_ssh_args tgt data.ssh_key data.ssh_port) tgt
             ("cat \"" ++ (rp ++ "/.plandrop/session_id") ++ "\" 2>/dev/null")])))
  ∧ (hstatus (action_read_session env data) = some "error" ↔
      (env.run (RemoteCall.ssh (build_ssh_args tgt data.ssh_key data.ssh_port) tgt
          ("cat \"" ++ (rp ++ "/.plandrop/session_id") ++ "\" 2>/dev/null")) = .timedOut
        ∨ env.run (RemoteCall.ssh (build_ssh_args tgt data.ssh_key data.ssh_port) tgt
          ("cat \"" ++ (rp ++ "/.plandrop/session_id") ++ "\" 2>/dev/null")) = .oserr)) := by
  have httgt : tgt.data.isEmpty = false := by
    cases he : tgt.data.isEmpty
    · rfl
    · unfold validate_ssh_target at hvt
      rw [if_pos he] at hvt
      exact Except.noConfusion hvt
  have hrpne : rp.data.isEmpty = false := by
    cases he : rp.data.isEmpty
    · rfl
    · unfold validate_path at hvp
      rw [if_pos he] at hvp
      exact Except.noConfusion hvp
  have hmiss : (!truthy (some tgt) || !truthy (some rp)) = false := by
    simp [truthy, httgt, hrpne]
  have hchar1 : ∀ (rc : Int) (out err : String),
      env.run (RemoteCall.ssh (build_ssh_args tgt data.ssh_key data.ssh_port) tgt
          ("cat \"" ++ (rp ++ "/.plandrop/heartbeat") ++ "\" 2>/dev/null"))
        = .completed rc out err →
      action_read_heartbeat env data =
        (if !(pyStrip out).data.isEmpty then
          (.ok (.obj [("status", .str "ok"), ("timestamp", .str (pyStrip out))]),
           [RemoteCall.ssh (build_ssh_args tgt data.ssh_key data.ssh_port) tgt
             ("cat \"" ++ (rp ++ "/.plandrop/heartbeat") ++ "\" 2>/dev/null")])
        else
          (.ok (.obj [("status", .str "not_running")]),
           [RemoteCall.ssh (build_ssh_args tgt data.ssh_key data.ssh_port) tgt
             ("cat \"" ++ (rp ++ "/.plandrop/heartbeat") ++ "\" 2>/dev/null")])) := by
    intro rc out err hrun
    simp only [action_read_heartbeat, ht, hp, Option.getD_some, hvt, hvp, hrun]
    rw [if_neg (by simp [hmiss])]
  have hchar2 : ∀ (rc : Int) (out err : String),
      env.run (RemoteCall.ssh (build_ssh_args tgt data.ssh_key data.ssh_port) tgt
          ("cat \"" ++ (rp ++ "/.plandrop/session_id") ++ "\" 2>/dev/null"))
        = .completed rc out err →
      action_read_session env data =
        (if !(pyStrip out).data.isEmpty then
          (.ok (.obj [("status", .str "ok"), ("session_id", .str (pyStrip out))]),
           [RemoteCall.ssh (build_ssh_args tgt data.ssh_key data.ssh_port) tgt
             ("cat \"" ++ (rp ++ "/.plandrop/session_id") ++ "\" 2>/dev/null")])
        else
          (.ok (.obj [("status", .str "empty")]),
           [RemoteCall.ssh (build_ssh_args tgt data.ssh_key data.ssh_port) tgt
             ("cat \"" ++ (rp ++ "/.plandrop/session_id") ++ "\" 2>/dev/null")])) := by
    intro rc out err hrun
    simp only [action_read_session, ht, hp, Option.getD_some, hvt, hvp, hrun]
    rw [if_neg (by simp [hmiss])]
  refine ⟨hchar1, ⟨?_, ?_⟩, hchar2, ⟨?_, ?_⟩⟩
  · intro herr
    cases houtc : env.run (RemoteCall.ssh (build_ssh_args tgt data.ssh_key data.ssh_port)
        tgt ("cat \"" ++ (rp ++ "/.plandrop/heartbeat") ++ "\" 2>/dev/null")) with
    | completed rc out err =>
      exfalso
      rw [hchar1 rc out err houtc] at herr
      by_cases hc : (pyStrip out).data.isEmpty = true
      · rw [if_neg (by simp [hc])] at herr
        exact absurd (Option.some_inj.mp
          (show some "not_running" = some "error" from herr)) (by decide)
      · rw [if_pos (by simp [ne_true_eq_false hc])] at herr
        exact absurd (Option.some_inj.mp
          (show some "ok" = some "error" from herr)) (by decide)
    | timedOut => exact Or.inl rfl
    | oserr => exact Or.inr rfl
  · intro hd
    cases hd with
    | inl h =>
      simp only [action_read_heartbeat, ht, hp, Option.getD_some, hvt, hvp, h]
      rw [if_neg (by simp [hmiss])]
      rfl
    | inr h =>
      simp only [action_read_heartbeat, ht, hp, Option.getD_some, hvt, hvp, h]
      rw [if_neg (by simp [hmiss])]
      rfl
  · intro herr
    cases houtc : env.run (RemoteCall.ssh (build_ssh_args tgt data.ssh_key data.ssh_port)
        tgt ("cat \"" ++ (rp ++ "/.plandrop/session_id") ++ "\" 2>/dev/null")) with
    | completed rc out err =>
      exfalso
      rw [hchar2 rc out err houtc] at herr
      by_cases hc : (pyStrip out).data.isEmpty = true
      · rw [if_neg (by simp [hc])] at herr
        exact absurd (Option.some_inj.mp
          (show some "empty" = some "error" from herr)) (by decide)
      · rw [if_pos (by simp [ne_true_eq_false hc])] at herr
        exact absurd (Option.some_inj.mp
          (show some "ok" = some "error" from herr)) (by decide)
    | timedOut => exact Or.inl rfl
    | oserr => exact Or.inr rfl
  · intro hd
    cases hd with
    | inl h =>
      simp only [action_read_session, ht, hp, Option.getD_some, hvt, hvp, h]
      rw [if_neg (by simp [hmiss])]
      rfl
    | inr h =>
      simp only [action_read_session, ht, hp, Option.getD_some, hvt, hvp, h]
      rw [if_neg (by simp [hmiss])]
      rfl

theorem C8_flat_file_reads_witness :
    action_read_heartbeat ⟨fun _ => .completed 1 "" "", true⟩
      { ssh_target := some "host", remote_path := some "/tmp/p" }
      = (.ok (.obj [("status", .str "not_running")]),
         [RemoteCall.ssh (build_ssh_args "host" none none) "host"
           ("cat \"" ++ ("/tmp/p" ++ "/.plandrop/heartbeat") ++ "\" 2>/dev/null")])
  ∧ hstatus (action_read_session ⟨fun _ => .timedOut, true⟩
      { ssh_target := some "host", remote_path := some "/tmp/p" }) = some "error" := by
  constructor
  · have h := (C8_flat_file_reads ⟨fun _ => .completed 1 "" "", true⟩
      { ssh_target := some "host", remote_path := some "/tmp/p" } "host" "/tmp/p"
      rfl (by rfl) rfl (by rfl)).1 1 "" "" rfl
    rw [h]
    rfl
  · exact ((C8_flat_file_reads ⟨fun _ => .timedOut, true⟩
      { ssh_target := some "host", remote_path := some "/tmp/p" } "host" "/tmp/p"
      rfl (by rfl) rfl (by rfl)).2.2.2).mpr (Or.inl rfl)

/-- C9: the `command` string of `run_command` is never passed through the
path or target validators: whenever the allow-list check passes (the
stripped command, after dropping a leading `cd dir &&` prefix, starts
with `plandrop-history`, or starts with `python3 ` and contains
`history.py`), the command string is forwarded verbatim as the remote
shell command — even when it contains shell metacharacters such as `;`
that the validators would reject. -/
theorem C9_run_command_verbatim (env : Env) (data : Req) (tgt rp cmd : String)
    (ht : data.ssh_target = some tgt) (hvt : validate_ssh_target tgt = .ok tgt)
    (hp : data.remote_path = some rp) (hvp : validate_path rp = .ok rp)
    (hc : data.command = some cmd) (hallow : allowed_run_command cmd = true) :
    (action_run_command env data).2
      = [RemoteCall.ssh (build_ssh_args tgt data.ssh_key data.ssh_port) tgt cmd] := by
  have httgt : tgt.data.isEmpty = false := by
    cases he : tgt.data.isEmpty
    · rfl
    · unfold validate_ssh_target at hvt
      rw [if_pos he] at hvt
      exact Except.noConfusion hvt
  have hrpne : rp.data.isEmpty = false := by
    cases he : rp.data.isEmpty
    · rfl
    · unfold validate_path at hvp
      rw [if_pos he] at hvp
      exact Except.noConfusion hvp
  have hmiss : (!truthy (some tgt) || !truthy (some rp)) = false := by
    simp [truthy, httgt, hrpne]
  simp only [action_run_command, ht, hp, hc, Option.getD_some, hvt, hvp]
  rw [if_neg (by simp [hmiss]), if_neg (by simp [hallow])]
  split
  · rfl
  · rfl
  · split
    · rfl
    · rfl

theorem C9_run_command_verbatim_witness :
    allowed_run_command "plandrop-history; rm -rf /" = true
  ∧ ("plandrop-history; rm -rf /").data.any dangerous_path_char = true
  ∧ (action_run_command ⟨fun _ => .completed 0 "" "", true⟩
      { ssh_target := some "host", remote_path := some "/tmp/p",
        command := some "plandrop-history; rm -rf /" }).2
      = [RemoteCall.ssh (build_ssh_args "host" none none) "host"
          "plandrop-history; rm -rf /"] :=
  ⟨by decide, by decide,
   C9_run_command_verbatim ⟨fun _ => .completed 0 "" "", true⟩
     { ssh_target := some "host", remote_path := some "/tmp/p",
       command := some "plandrop-history; rm -rf /" }
     "host" "/tmp/p" "plandrop-history; rm -rf /" rfl (by rfl) rfl (by rfl) rfl
     (by decide)⟩

/-- C10: with valid inputs and a matching plan id, `poll_responses`
decides its result solely from the invocation's standard output, ignoring
the exit status: a completed invocation (any exit code, including nonzero)
yields `status = ok` carrying the raw, unstripped stdout when the stripped
stdout is non-empty, and `status = empty` otherwise. -/
theorem C10_poll_stdout (env : Env) (data : Req) (tgt rp pid : String)
    (ht : data.ssh_target = some tgt) (hvt : validate_ssh_target tgt = .ok tgt)
    (hp : data.remote_path = some rp) (hvp : validate_path rp = .ok rp)
    (hpid : data.plan_id = some pid) (hpm : pyMatchId pid = true) :
    ∀ (rc : Int) (out err : String),
      env.run (RemoteCall.ssh (build_ssh_args tgt data.ssh_key data.ssh_port) tgt
          ("cat \"" ++ (rp ++ "/.plandrop/responses/" ++ pid ++ ".jsonl")
            ++ "\" 2>/dev/null")) = .completed rc out err →
      action_poll_responses env data =
        (if !(pyStrip out).data.isEmpty then
          (.ok (.obj [("status", .str "ok"), ("content", .str out)]),
           [RemoteCall.ssh (build_ssh_args tgt data.ssh_key data.ssh_port) tgt
             ("cat \"" ++ (rp ++ "/.plandrop/responses/" ++ pid ++ ".jsonl")
               ++ "\" 2>/dev/null")])
        else
          (.ok (.obj [("status", .str "empty")]),
           [RemoteCall.ssh (build_ssh_args tgt data.ssh_key data.ssh_port) tgt
             ("cat \"" ++ (rp ++ "/.plandrop/responses/" ++ pid ++ ".jsonl")
               ++ "\" 2>/dev/null")])) := by
  have httgt : tgt.data.isEmpty = false := by
    cases he : tgt.data.isEmpty
    · rfl
    · unfold validate_ssh_target at hvt
      rw [if_pos he] at hvt
      exact Except.noConfusion hvt
  have hrpne : rp.data.isEmpty = false := by
    cases he : rp.data.isEmpty
    · rfl
    · unfold validate_path at hvp
      rw [if_pos he] at hvp
      exact Except.noConfusion hvp
  have hpidne : pid.data.isEmpty = false := by
    cases hd : pid.data with
    | nil =>
      exfalso
      simp only [pyMatchId, hd] at hpm
      exact absurd hpm (by decide)
    | cons a t => rfl
  have hmiss : (!truthy (some tgt) || !truthy (some rp) || !truthy (some pid)) = false := by
    simp [truthy, httgt, hrpne, hpidne]
  intro rc out err hrun
  simp only [action_poll_responses, ht, hp, hpid, Option.getD_some, hvt, hvp, hrun]
  rw [if_neg (by simp [hmiss]), if_neg (by simp [hpm])]

theorem C10_poll_stdout_witness :
    action_poll_responses ⟨fun _ => .completed 1 "" "", true⟩
      { ssh_target := some "host", remote_path := some "/tmp/p", plan_id := some "p1" }
      = (.ok (.obj [("status", .str "empty")]),
         [RemoteCall.ssh (build_ssh_args "host" none none) "host"
           ("cat \"" ++ ("/tmp/p" ++ "/.plandrop/responses/" ++ "p1" ++ ".jsonl")
             ++ "\" 2>/dev/null")])
  ∧ action_poll_responses ⟨fun _ => .completed 1 " data\n" "boom", true⟩
      { ssh_target := some "host", remote_path := some "/tmp/p", plan_id := some "p1" }
      = (.ok (.obj [("status", .str "ok"), ("content", .str " data\n")]),
         [RemoteCall.ssh (build_ssh_args "host" none none) "host"
           ("cat \"" ++ ("/tmp/p" ++ "/.plandrop/responses/" ++ "p1" ++ ".jsonl")
             ++ "\" 2>/dev/null")]) := by
  constructor
  · have h := C10_poll_stdout ⟨fun _ => .completed 1 "" "", true⟩
      { ssh_target := some "host", remote_path := some "/tmp/p", plan_id := some "p1" }
      "host" "/tmp/p" "p1" rfl (by rfl) rfl (by rfl) rfl (by decide) 1 "" "" rfl
    rw [h]
    rfl
  · have h := C10_poll_stdout ⟨fun _ => .completed 1 " data\n" "boom", true⟩
      { ssh_target := some "host", remote_path := some "/tmp/p", plan_id := some "p1" }
      "host" "/tmp/p" "p1" rfl (by rfl) rfl (by rfl) rfl (by decide) 1 " data\n" "boom" rfl
    rw [h]
    rfl

end PlanDrop
